import Mathlib

/-! # ImageBufferIO: image <-> buffer transfer through GDAL

A shallow embedding of `src/ImageBufferIO.h` (the class template
`ImageBufferIO<T>`) and the properties of it that the specification states.

Modelling conventions.

* The template argument `T` is a tag of type `CType`; the values of `T` are the
  elements of an arbitrary Lean type `α`.
* A `T*` band buffer is `Option (List α)`: `none` is the null pointer, `some l`
  points to an array holding the elements `l`.  A `std::vector<T*>` is a list of
  such slots, a `std::vector<int>` is a `List Int`.
* GDAL is not part of the repository.  It is a parameter: a record `Codec σ α` of
  the entry points the source calls, over an arbitrary library state `σ`.  Every
  call the source makes is also appended to a call log, so that "no call was
  made" and "this call was made" can be stated.
* Control leaving C++ (a member call through a null pointer, an access outside a
  vector or an array) is the result `Outcome.undefined`.
* C++ `int` loop counters and raster sizes are natural numbers, entries of a
  `std::vector<int>` are integers.  Where the source computes from `int`s a
  value that can leave the range of `int` - the offset `row * dimensions[0]`
  (lines 188 and 246) and the bound `dimensions[2] + 1` (line 232) - the model
  compares the exact value with `INT_MAX` and answers `Outcome.undefined`
  beyond it (signed overflow).  The other counters stay below their bound.
* `size_t` is 64 bits wide, so the byte counts handed to `CPLMalloc` and
  `memcpy` are exact whenever the offsets are in range, and a request for
  memory is granted.  Memory that `CPLMalloc` returns is not initialised: its
  content is the field `fresh` of the codec, an arbitrary value.
-/

namespace ImageBuffer

/-! ## GDAL types used by the source -/

/-- The pixel data types of `gdal.h`. -/
inductive GDALDataType where
  | GDT_Unknown
  | GDT_Byte
  | GDT_UInt16
  | GDT_Int16
  | GDT_UInt32
  | GDT_Int32
  | GDT_Float32
  | GDT_Float64
  | GDT_CInt16
  | GDT_CInt32
  | GDT_CFloat32
  | GDT_CFloat64
  deriving DecidableEq, Repr

/-- The error classes of `cpl_error.h`, the return type of `RasterIO`. -/
inductive CPLErr where
  | CE_None
  | CE_Debug
  | CE_Warning
  | CE_Failure
  | CE_Fatal
  deriving DecidableEq, Repr

/-- The C++ types the template can be instantiated with: the ten that
`toGDALDataType` tests for, some further arithmetic types, and `other` for
any type beyond those. -/
inductive CType where
  | unsignedChar
  | shortInt
  | unsignedShortInt
  | int
  | float
  | double
  | complexUnsignedShortInt
  | complexInt
  | complexFloat
  | complexDouble
  | char
  | signedChar
  | unsignedInt
  | longInt
  | unsignedLongInt
  | bool
  | longDouble
  | complexShortInt
  | other (tag : Nat)
  deriving DecidableEq, Repr

open GDALDataType CPLErr

/-- `ImageBufferIO<T>::toGDALDataType()` (source lines 95-139): the chain of
`typeid` comparisons, in the order of the source. -/
def toGDALDataType (T : CType) : GDALDataType :=
  if T = CType.unsignedChar then GDT_Byte
  else if T = CType.shortInt then GDT_Int16
  else if T = CType.unsignedShortInt then GDT_UInt16
  else if T = CType.int then GDT_Int32
  else if T = CType.float then GDT_Float32
  else if T = CType.double then GDT_Float64
  else if T = CType.complexUnsignedShortInt then GDT_CInt16
  else if T = CType.complexInt then GDT_CInt32
  else if T = CType.complexFloat then GDT_CFloat32
  else if T = CType.complexDouble then GDT_CFloat64
  else GDT_Unknown

/-- The ten element types the specification calls supported. -/
def supportedTypes : List CType :=
  [CType.unsignedChar, CType.shortInt, CType.unsignedShortInt, CType.int,
   CType.float, CType.double, CType.complexUnsignedShortInt, CType.complexInt,
   CType.complexFloat, CType.complexDouble]

/-! ## Buffers -/

/-- One entry of a `std::vector<T*>`: null, or a pointer to an array. -/
abbrev Slot (α : Type) := Option (List α)

/-- The largest `int`, 32 bits wide. -/
def INT_MAX : Nat := 2147483647

/-- An in-bounds `memcpy(&dst[off], src, w * sizeof(T))`: the `w` elements of
`dst` from index `off` on are replaced by `src[0] .. src[w-1]`, the others stay. -/
def memcpyRow {α : Type} (dst : List α) (off w : Nat) (src : Nat → α) : List α :=
  dst.mapIdx fun i x => if off ≤ i ∧ i < off + w then src (i - off) else x

/-- `(T*) CPLMalloc(sizeof(T) * count)`: GDAL returns the null pointer for a
request of zero bytes, and an array that is not initialised otherwise; `fresh`
is what such memory holds. -/
def cplMalloc {α : Type} (fresh : Nat → α) (count : Nat) : Slot α :=
  if count = 0 then none else some ((List.range count).map fresh)

/-! ## The GDAL interface the source calls -/

/-- A `GDALDataset*` that is not null. -/
abbrev Handle := Nat

/-- A `GDALDriver*` that is not null, named by the driver it points to. -/
abbrev Driver := String

/-- The calls the source makes on GDAL, with their arguments (the pixel data
apart). -/
inductive Call where
  | allRegister
  | getDriverByName (driver : String)
  | create (driver : Driver) (path : String) (xSize ySize bands : Int) (t : GDALDataType)
  | gdalOpen (path : String)
  | rasterWrite (ds : Handle) (band row width : Nat) (t : GDALDataType)
  | rasterRead (ds : Handle) (band row width : Nat) (t : GDALDataType)
  | close (ds : Handle)
  deriving DecidableEq, Repr

/-- GDAL as the source sees it, over a library state `σ` and element values `α`.

* `fresh` is the content of the memory `CPLMalloc` returns.
* `allRegister` is `GDALAllRegister()`.
* `getDriverByName` is `GetGDALDriverManager()->GetDriverByName(name)`; `none`
  is the null pointer.
* `create` is `poDriver->Create(path, xSize, ySize, bands, type, NULL)` on a
  driver that is not null; `none` is the null pointer.
* `gdalOpen` is `GDALOpen(path, GA_ReadOnly)`; `none` is the null pointer.
* `getRasterXSize`, `getRasterYSize`, `getRasterCount` are the accessors of an
  open dataset; GDAL returns `int`s that are not negative.
* `rasterWrite s ds band row width data type` is
  `ds->GetRasterBand(band)->RasterIO(GF_Write, 0, row, width, 1, data, width, 1,
  type, 0, 0)`, where `data` holds the `width` elements the pointer argument
  points to.
* `rasterRead s ds band row width type rowTmp` is the same call with `GF_Read`
  on a row buffer whose content is `rowTmp`; it yields the status and the
  content of the row buffer after the call, by column (a call that is refused
  may leave the buffer as it was).  Reading leaves the state of GDAL as it is.
* `close` is `GDALClose(ds)`.

A band is named by its index: `GetRasterBand` is part of the two row transfers,
and the bands the source asks for (`1 .. GetRasterCount()` of an opened
dataset, `1 .. dimensions[2]` of a created one) are taken to exist. -/
structure Codec (σ α : Type) where
  fresh : Nat → α
  allRegister : σ → σ
  getDriverByName : σ → String → Option Driver
  create : σ → Driver → String → Int → Int → Int → GDALDataType → σ × Option Handle
  gdalOpen : σ → String → σ × Option Handle
  getRasterXSize : σ → Handle → Nat
  getRasterYSize : σ → Handle → Nat
  getRasterCount : σ → Handle → Nat
  rasterWrite : σ → Handle → Nat → Nat → Nat → List α → GDALDataType → σ × CPLErr
  rasterRead : σ → Handle → Nat → Nat → Nat → GDALDataType → (Nat → α) → CPLErr × (Nat → α)
  close : σ → Handle → σ

/-- How a call of `image2Buffer` or `buffer2Image` ends: it returns a `bool`,
or it leaves defined C++ behaviour. -/
inductive Outcome where
  | returned (value : Bool)
  | undefined
  deriving DecidableEq, Repr

/-! ## `image2Buffer` -/

/-- What a call of `image2Buffer` leaves behind. -/
structure ReadRun (σ α : Type) where
  /-- The value returned. -/
  result : Outcome
  /-- The caller's `buffer` vector after the call. -/
  buffer : List (Slot α)
  /-- The caller's `dimensions` vector after the call. -/
  dimensions : List Int
  /-- The state of GDAL after the call. -/
  world : σ
  /-- The calls made on GDAL, in order. -/
  calls : List Call

/-- The state of the row loop of `image2Buffer`: the band buffer being filled,
the content of `rowTmp`, the call log, and whether every `int` computed so far
stayed in range. -/
structure RState (α : Type) where
  slot : Slot α
  rowTmp : Nat → α
  calls : List Call
  defined : Bool

/-- The state of the band loop of `image2Buffer`: the caller's vector, the
content of `rowTmp`, the call log, and whether every `int` computed so far
stayed in range. -/
structure BState (α : Type) where
  buffer : List (Slot α)
  rowTmp : Nat → α
  calls : List Call
  defined : Bool

/-- One turn of the row loop of `image2Buffer` (source lines 242-246): the
`RasterIO(GF_Read, ...)` call into `rowTmp`, whose status is dropped, then the
`memcpy` of `rowTmp` to offset `row * dimensions[0]` of the band buffer.  The
offset is a product of two `int`s: beyond `INT_MAX` it is undefined. -/
def readRow {σ α : Type} (C : Codec σ α) (s : σ) (ds : Handle) (t : GDALDataType)
    (w band : Nat) (st : RState α) (row : Nat) : RState α :=
  if st.defined then
    if row * w ≤ INT_MAX then
      { slot := st.slot.map fun b =>
          memcpyRow b (row * w) w (C.rasterRead s ds band row w t st.rowTmp).2,
        rowTmp := (C.rasterRead s ds band row w t st.rowTmp).2,
        calls := st.calls ++ [Call.rasterRead ds band row w t],
        defined := true }
    else
      { slot := st.slot,
        rowTmp := (C.rasterRead s ds band row w t st.rowTmp).2,
        calls := st.calls ++ [Call.rasterRead ds band row w t],
        defined := false }
  else st

/-- One turn of the band loop of `image2Buffer` (source lines 234-247): the
band buffer is allocated with `w * h` elements, stored in slot `band - 1`, and
filled row by row through the one `rowTmp`. -/
def readBand {σ α : Type} (C : Codec σ α) (s : σ) (ds : Handle)
    (t : GDALDataType) (w h : Nat) (st : BState α) (band : Nat) : BState α :=
  if st.defined then
    let r := (List.range h).foldl (readRow C s ds t w band)
      { slot := cplMalloc C.fresh (w * h), rowTmp := st.rowTmp, calls := st.calls,
        defined := true }
    { buffer := st.buffer.set (band - 1) r.slot, rowTmp := r.rowTmp, calls := r.calls,
      defined := r.defined }
  else st

/-- `ImageBufferIO<T>::image2Buffer(imagepath, buffer, dimensions, initGDAL)`
(source lines 199-254), run in the GDAL state `s`.  The row buffer `rowTmp` is
allocated once (line 230) and not initialised; its `CPLMalloc` and `CPLFree`
leave no trace in the call log.  The bound `dimensions[2] + 1` of the band loop
(line 232) is a sum of two `int`s: beyond `INT_MAX` it is undefined. -/
def image2Buffer {σ α : Type} (T : CType) (C : Codec σ α) (s : σ)
    (imagepath : String) (buffer : List (Slot α)) (dimensions : List Int)
    (initGDAL : Bool) : ReadRun σ α :=
  -- 1 - Image opening and reading
  let s0 := if initGDAL then C.allRegister s else s
  let log0 := if initGDAL then [Call.allRegister] else []
  match C.gdalOpen s0 imagepath with
  | (s1, none) =>
    { result := Outcome.returned false, buffer := buffer, dimensions := dimensions,
      world := s1, calls := log0 ++ [Call.gdalOpen imagepath] }
  | (s1, some poDataset) =>
    -- 2 - Dimensions initialization
    let w := C.getRasterXSize s1 poDataset
    let h := C.getRasterYSize s1 poDataset
    let n := C.getRasterCount s1 poDataset
    let dims : List Int := [(w : Int), (h : Int), (n : Int)]
    let buffer0 : List (Slot α) := List.replicate n none
    -- 3 - Data loading band by band / row by row
    if n + 1 ≤ INT_MAX then
      let st := (List.range' 1 n).foldl (readBand C s1 poDataset (toGDALDataType T) w h)
        { buffer := buffer0, rowTmp := C.fresh, calls := log0 ++ [Call.gdalOpen imagepath],
          defined := true }
      if st.defined then
        -- 4 - Closing and return
        { result := Outcome.returned true, buffer := st.buffer, dimensions := dims,
          world := C.close s1 poDataset, calls := st.calls ++ [Call.close poDataset] }
      else
        { result := Outcome.undefined, buffer := st.buffer, dimensions := dims,
          world := s1, calls := st.calls }
    else
      { result := Outcome.undefined, buffer := buffer0, dimensions := dims,
        world := s1, calls := log0 ++ [Call.gdalOpen imagepath] }

/-! ## `buffer2Image` -/

/-- The state of the write loops: GDAL, the call log, and whether every `int`
computed so far stayed in range and every access stayed inside the caller's
vector and arrays. -/
structure WState (σ : Type) where
  world : σ
  calls : List Call
  defined : Bool

/-- What a call of `buffer2Image` leaves behind. -/
structure WriteRun (σ : Type) where
  /-- The value returned. -/
  result : Outcome
  /-- The state of GDAL after the call. -/
  world : σ
  /-- The calls made on GDAL, in order. -/
  calls : List Call

/-- One turn of the row loop of `buffer2Image` (source lines 187-189): the
`RasterIO(GF_Write, ...)` call on the `w` elements at offset
`row * dimensions[0]` of the band buffer, whose status is dropped.  The offset
is a product of two `int`s: beyond `INT_MAX` it is undefined, and so is reading
past the end of the caller's array. -/
def writeRow {σ α : Type} (C : Codec σ α) (ds : Handle) (t : GDALDataType)
    (w band : Nat) (buf : List α) (st : WState σ) (row : Nat) : WState σ :=
  if st.defined then
    if row * w ≤ INT_MAX then
      if row * w + w ≤ buf.length then
        { world := (C.rasterWrite st.world ds (band + 1) row w
                      ((buf.drop (row * w)).take w) t).1,
          calls := st.calls ++ [Call.rasterWrite ds (band + 1) row w t],
          defined := true }
      else { st with defined := false }
    else { st with defined := false }
  else st

/-- One turn of the band loop of `buffer2Image` (source lines 183-190), for
`band` counted from 0.  `buffer[band]` outside the vector, or null, is
undefined. -/
def writeBand {σ α : Type} (C : Codec σ α) (ds : Handle) (t : GDALDataType)
    (w h : Nat) (buffer : List (Slot α)) (st : WState σ) (band : Nat) : WState σ :=
  match buffer[band]? with
  | some (some buf) => (List.range h).foldl (writeRow C ds t w band buf) st
  | _ => { st with defined := false }

/-- The condition of source line 162:
`dimensions.size() < 3 || dimensions[0] < 1 || dimensions[1] < 1 || dimensions[2] < 1`.
The entries are read only when the vector has them (`||` stops at the first
disjunct that holds). -/
def invalidDimensions (dimensions : List Int) : Prop :=
  dimensions.length < 3 ∨ dimensions.getD 0 0 < 1 ∨ dimensions.getD 1 0 < 1
    ∨ dimensions.getD 2 0 < 1

instance invalidDimensionsDecidable : DecidablePred invalidDimensions :=
  fun d => by unfold invalidDimensions; infer_instance

/-- `ImageBufferIO<T>::buffer2Image(buffer, dimensions, imagepath, driver,
initGDAL)` (source lines 154-196), run in the GDAL state `s`. -/
def buffer2Image {σ α : Type} (T : CType) (C : Codec σ α) (s : σ)
    (buffer : List (Slot α)) (dimensions : List Int) (imagepath : String)
    (driver : String) (initGDAL : Bool) : WriteRun σ :=
  -- 1 - Basic dimensions checking
  if invalidDimensions dimensions then
    { result := Outcome.returned false, world := s, calls := [] }
  else
    -- 2 - Image creation and opening
    let s0 := if initGDAL then C.allRegister s else s
    let log0 := if initGDAL then [Call.allRegister] else []
    match C.getDriverByName s0 driver with
    | none =>
      -- `poDriver->Create(...)` through the null pointer
      { result := Outcome.undefined, world := s0,
        calls := log0 ++ [Call.getDriverByName driver] }
    | some poDriver =>
      let log1 := log0 ++ [Call.getDriverByName driver,
        Call.create poDriver imagepath (dimensions.getD 0 0) (dimensions.getD 1 0)
          (dimensions.getD 2 0) (toGDALDataType T)]
      match C.create s0 poDriver imagepath (dimensions.getD 0 0) (dimensions.getD 1 0)
          (dimensions.getD 2 0) (toGDALDataType T) with
      | (s1, none) => { result := Outcome.returned false, world := s1, calls := log1 }
      | (s1, some image) =>
        -- 3 - Image writing
        let st := (List.range (dimensions.getD 2 0).toNat).foldl
          (writeBand C image (toGDALDataType T) (dimensions.getD 0 0).toNat
            (dimensions.getD 1 0).toNat buffer)
          { world := s1, calls := log1, defined := true }
        if st.defined then
          -- 4 - Closing and return
          { result := Outcome.returned true, world := C.close st.world image,
            calls := st.calls ++ [Call.close image] }
        else { result := Outcome.undefined, world := st.world, calls := st.calls }

/-! ## A lossless in-memory GDAL -/

/-- A raster file: its sizes and its pixels by band (from 1), row and column. -/
structure Raster (α : Type) where
  xSize : Nat
  ySize : Nat
  count : Nat
  pix : Nat → Nat → Nat → α

/-- The state of the in-memory GDAL: the registered drivers, the files by
path, and the table of datasets (a handle is an index of the table; the entry
is the path of the file, or `none` once the dataset is closed). -/
structure MemWorld (α : Type) where
  drivers : List String
  files : String → Option (Raster α)
  handles : List (Option String)

/-- The file an open dataset stands for. -/
def MemWorld.raster {α : Type} (s : MemWorld α) (ds : Handle) : Option (Raster α) :=
  match s.handles.getD ds none with
  | none => none
  | some path => s.files path

/-- The state `s` with the file at `path` replaced by `img`. -/
def MemWorld.store {α : Type} (s : MemWorld α) (path : String) (img : Raster α) :
    MemWorld α :=
  { s with files := fun p => if p = path then some img else s.files p }

/-- The drivers `GDALAllRegister` registers in the in-memory GDAL. -/
def memDrivers : List String := ["GTiff", "ENVI", "HFA", "VRT"]

/-- Whether a one-row window of `width` columns at `row` of `band` lies inside
the raster. -/
def Raster.window {α : Type} (img : Raster α) (band row width : Nat) : Bool :=
  decide (1 ≤ band) && decide (band ≤ img.count) && decide (row < img.ySize)
    && decide (width ≤ img.xSize)

/-- A lossless GDAL that keeps its files in memory.  Creation writes a blank
file of the sizes asked for and fails only for `GDT_Unknown`; opening succeeds
exactly on the paths that hold a file; a row transfer fails for `GDT_Unknown`,
for a closed dataset and for a window outside the raster, and otherwise stores,
or delivers, the row unchanged; a read that fails leaves the row buffer as it
was.  Memory that is not initialised holds `default`. -/
def memGDAL (α : Type) [Inhabited α] : Codec (MemWorld α) α where
  fresh _ := default
  allRegister s := { s with drivers := memDrivers }
  getDriverByName s name := if name ∈ s.drivers then some name else none
  create s _ path xSize ySize bands t :=
    if t = GDT_Unknown then (s, none)
    else
      ({ (s.store path ⟨xSize.toNat, ySize.toNat, bands.toNat, fun _ _ _ => default⟩) with
          handles := s.handles ++ [some path] },
       some s.handles.length)
  gdalOpen s path :=
    match s.files path with
    | none => (s, none)
    | some _ => ({ s with handles := s.handles ++ [some path] }, some s.handles.length)
  getRasterXSize s ds := match s.raster ds with
    | some img => img.xSize
    | none => 0
  getRasterYSize s ds := match s.raster ds with
    | some img => img.ySize
    | none => 0
  getRasterCount s ds := match s.raster ds with
    | some img => img.count
    | none => 0
  rasterWrite s ds band row width data t :=
    if t = GDT_Unknown then (s, CE_Failure)
    else
      match s.handles.getD ds none, s.raster ds with
      | some path, some img =>
        if img.window band row width then
          (s.store path { img with
              pix := fun b r c =>
                if b = band ∧ r = row ∧ c < width then data.getD c default
                else img.pix b r c },
           CE_None)
        else (s, CE_Failure)
      | _, _ => (s, CE_Failure)
  rasterRead s ds band row width t rowTmp :=
    if t = GDT_Unknown then (CE_Failure, rowTmp)
    else
      match s.raster ds with
      | some img =>
        if img.window band row width then (CE_None, img.pix band row)
        else (CE_Failure, rowTmp)
      | none => (CE_Failure, rowTmp)
  close s ds := { s with handles := s.handles.set ds none }

/-- The content of `rowTmp` after the read calls of rows `0 .. k-1` of `band`,
when it held `tmp` before the first of them. -/
def scratchRows {σ α : Type} (C : Codec σ α) (s : σ) (ds : Handle) (t : GDALDataType)
    (w band : Nat) (tmp : Nat → α) : Nat → (Nat → α)
  | 0 => tmp
  | k + 1 => (C.rasterRead s ds band k w t (scratchRows C s ds t w band tmp k)).2

/-- The content of `rowTmp` after the read calls of the bands `1 .. j`, `h`
rows each: not initialised before the first band. -/
def scratchBands {σ α : Type} (C : Codec σ α) (s : σ) (ds : Handle) (t : GDALDataType)
    (w h : Nat) : Nat → (Nat → α)
  | 0 => C.fresh
  | j + 1 => scratchRows C s ds t w (j + 1) (scratchBands C s ds t w h j) h

/-- What GDAL delivers for `band` and `row` in a run of `image2Buffer`: the
content of `rowTmp` after the `RasterIO(GF_Read, ...)` call of that band and
row, the calls of the earlier bands and rows having been made before it. -/
def delivered {σ α : Type} (C : Codec σ α) (s : σ) (ds : Handle) (t : GDALDataType)
    (w h band row : Nat) : Nat → α :=
  (C.rasterRead s ds band row w t
    (scratchRows C s ds t w band (scratchBands C s ds t w h (band - 1)) row)).2

/-- The band buffer `image2Buffer` builds for `band` when `rowTmp` held `tmp`
before the band: null when `w * h = 0`, else the `w * h` values GDAL delivers
for the band, row after row. -/
def bandContent {σ α : Type} (C : Codec σ α) (s : σ) (ds : Handle) (t : GDALDataType)
    (w h band : Nat) (tmp : Nat → α) : Slot α :=
  if w * h = 0 then none
  else some ((List.range (w * h)).map fun i =>
    scratchRows C s ds t w band tmp (i / w + 1) (i % w))

/-- The `RasterIO(GF_Read, ...)` calls of one band, rows `0 .. h-1` in order. -/
def readCalls (ds : Handle) (t : GDALDataType) (w h band : Nat) : List Call :=
  (List.range h).map fun row => Call.rasterRead ds band row w t

/-- The `RasterIO(GF_Write, ...)` calls of the band counted `band` from 0, rows
`0 .. h-1` in order. -/
def writeCalls (ds : Handle) (t : GDALDataType) (w h band : Nat) : List Call :=
  (List.range h).map fun row => Call.rasterWrite ds (band + 1) row w t

/-- The elements a slot points to; the null pointer points to none. -/
def slotElems {α : Type} (slot : Slot α) : List α := slot.getD []

/-- The state of the in-memory GDAL after a dataset has been appended to the
table of `s` for `path`, the file at `path` being `img`. -/
def MemWorld.withOpen {α : Type} (s : MemWorld α) (path : String) (img : Raster α) :
    MemWorld α :=
  { drivers := s.drivers,
    files := fun p => if p = path then some img else s.files p,
    handles := s.handles ++ [some path] }

/-- The pixels of a raster after rows `0 .. k-1` of the band counted `band` from
0 have been written from `buf`, `w` elements a row. -/
def rowsWritten {α : Type} [Inhabited α] (w band k : Nat) (buf : List α)
    (pix : Nat → Nat → Nat → α) : Nat → Nat → Nat → α :=
  fun b r c => if b = band + 1 ∧ r < k ∧ c < w then buf.getD (r * w + c) default else pix b r c

/-- The pixels of a blank raster after the bands `1 .. j` have been written
from the slots `0 .. j-1` of `buffer`, `h` rows of `w` elements each. -/
def bandsWritten {α : Type} [Inhabited α] (w h j : Nat) (buffer : List (Slot α)) :
    Nat → Nat → Nat → α :=
  fun b r c =>
    if 1 ≤ b ∧ b ≤ j ∧ r < h ∧ c < w then
      (slotElems (buffer.getD (b - 1) none)).getD (r * w + c) default
    else default

/-- The caller's side of the contract of `buffer2Image`: `n` slots, none of them
null, each pointing to exactly `w * h` elements. -/
def wellFormed {α : Type} (buffer : List (Slot α)) (w h n : Nat) : Prop :=
  buffer.length = n ∧ ∀ slot ∈ buffer, slot.map List.length = some (w * h)

instance wellFormedDecidable {α : Type} (buffer : List (Slot α)) (w h n : Nat) :
    Decidable (wellFormed buffer w h n) := by
  unfold wellFormed; infer_instance

/-- The state `buffer2Image` leaves the in-memory GDAL in when it writes a well
formed `buffer` of sizes `w`, `h`, `n` to `path`, starting from `s`: the file
holds the bands of `buffer`, and the dataset created for it is closed. -/
def MemWorld.written {α : Type} [Inhabited α] (s : MemWorld α) (path : String)
    (w h n : Nat) (buffer : List (Slot α)) : MemWorld α :=
  { drivers := s.drivers,
    files := fun p =>
      if p = path then some ⟨w, h, n, bandsWritten w h n buffer⟩ else s.files p,
    handles := (s.handles ++ [some path]).set s.handles.length none }

/-- A GDAL that behaves as the in-memory one, except that every row transfer
fails (a full disk, a truncated file): a write stores nothing, a read leaves
the row buffer as it was, and both report `CE_Failure`. -/
def failingGDAL (α : Type) [Inhabited α] : Codec (MemWorld α) α :=
  { memGDAL α with
    rasterWrite := fun s _ _ _ _ _ _ => (s, CE_Failure)
    rasterRead := fun _ _ _ _ _ _ rowTmp => (CE_Failure, rowTmp) }

/-- The in-memory GDAL on a machine where memory that is not initialised holds
`170 + i` at index `i`. -/
def staleGDAL : Codec (MemWorld Nat) Nat :=
  { memGDAL Nat with fresh := fun i => 170 + i }

/-- A GDAL that behaves as the in-memory one, except that creation does not
look at the data type: it writes the blank file for `GDT_Unknown` too. -/
def lenientGDAL (α : Type) [Inhabited α] : Codec (MemWorld α) α :=
  { memGDAL α with
    create := fun s _ path xSize ySize bands _ =>
      ({ (s.store path ⟨xSize.toNat, ySize.toNat, bands.toNat, fun _ _ _ => default⟩) with
          handles := s.handles ++ [some path] },
       some s.handles.length) }

/-! ## Concrete inputs -/

/-- An in-memory GDAL holding one file, `in.tif`: 2 columns, 3 rows, 1 band,
the pixel at row `r` and column `c` being `10 * r + c + 1`. -/
def demoWorld : MemWorld Nat :=
  { drivers := ["GTiff"],
    files := fun p => if p = "in.tif" then some ⟨2, 3, 1, fun _ r c => 10 * r + c + 1⟩ else none,
    handles := [] }

/-- The ramp buffers of the scenario of the specification: two bands of
`4 * 3` elements. -/
def rampBuffers : List (Slot Nat) :=
  [some [0, 1, 2, 3, 4, 5, 6, 7, 8, 9, 10, 11],
   some [100, 101, 102, 103, 104, 105, 106, 107, 108, 109, 110, 111]]


/-- An in-memory GDAL holding one file, `huge.tif`, of `w` columns, `h` rows
and `n` bands, every pixel being 0. -/
def hugeWorld (w h n : Nat) : MemWorld Nat :=
  { drivers := ["GTiff"],
    files := fun p => if p = "huge.tif" then some ⟨w, h, n, fun _ _ _ => 0⟩ else none,
    handles := [] }

/-! ## Properties of the type mapping and of `cleanBuffer` -/

/-- The types `toGDALDataType` maps to a GDAL type are the ten supported ones. -/
theorem toGDALDataType_ne_unknown_iff (T : CType) : toGDALDataType T ≠ GDT_Unknown ↔ T ∈ supportedTypes := by
  cases T <;> simp [toGDALDataType, supportedTypes]

/-- C3. `toGDALDataType` differs from `GDT_Unknown` exactly on the ten supported
element types, maps each of them to the GDAL type the specification lists, and
yields `GDT_Unknown` for every other element type. -/
theorem c3_toGDALDataType_mapping :
    (∀ T : CType, toGDALDataType T ≠ GDT_Unknown ↔ T ∈ supportedTypes) ∧
    toGDALDataType CType.unsignedChar = GDT_Byte ∧
    toGDALDataType CType.shortInt = GDT_Int16 ∧
    toGDALDataType CType.unsignedShortInt = GDT_UInt16 ∧
    toGDALDataType CType.int = GDT_Int32 ∧
    toGDALDataType CType.float = GDT_Float32 ∧
    toGDALDataType CType.double = GDT_Float64 ∧
    toGDALDataType CType.complexUnsignedShortInt = GDT_CInt16 ∧
    toGDALDataType CType.complexInt = GDT_CInt32 ∧
    toGDALDataType CType.complexFloat = GDT_CFloat32 ∧
    toGDALDataType CType.complexDouble = GDT_CFloat64 ∧
    (∀ T : CType, T ∉ supportedTypes → toGDALDataType T = GDT_Unknown) := by
  refine ⟨?_, rfl, rfl, rfl, rfl, rfl, rfl, rfl, rfl, rfl, rfl, ?_⟩
  · intro T
    cases T <;> simp [toGDALDataType, supportedTypes]
  · intro T hT
    cases T <;> simp_all [toGDALDataType, supportedTypes]

theorem div_mod_of_row (w k j : Nat) (hj : j < w) :
    (k * w + j) / w = k ∧ (k * w + j) % w = j := by
  have hw : 0 < w := by omega
  constructor
  · rw [Nat.mul_comm, Nat.mul_add_div hw, Nat.div_eq_of_lt hj]; rfl
  · rw [Nat.mul_comm, Nat.mul_add_mod, Nat.mod_eq_of_lt hj]

/-- The offset of a row is in range when the offset of the last row is. -/
theorem row_offset_le (w h r : Nat) (hr : r < h) (hov : (h - 1) * w ≤ INT_MAX) :
    r * w ≤ INT_MAX :=
  Nat.le_trans (Nat.mul_le_mul_right w (by omega)) hov

/-- Once an offset has left the range of `int` the row loop changes nothing. -/
theorem readRow_foldl_undefined {σ α : Type} (C : Codec σ α) (s : σ) (ds : Handle)
    (t : GDALDataType) (w band : Nat) (st : RState α) (rows : List Nat)
    (hst : st.defined = false) :
    rows.foldl (readRow C s ds t w band) st = st := by
  induction rows with
  | nil => rfl
  | cons r rows ih => simp [List.foldl_cons, readRow, hst, ih]

/-- A row loop that ends defined started defined, and logged one read call per
row. -/
theorem readRow_foldl_defined {σ α : Type} (C : Codec σ α) (s : σ) (ds : Handle)
    (t : GDALDataType) (w band : Nat) (st : RState α) (k : Nat)
    (hdef : ((List.range k).foldl (readRow C s ds t w band) st).defined = true) :
    st.defined = true ∧
    ((List.range k).foldl (readRow C s ds t w band) st).calls =
      st.calls ++ readCalls ds t w k band := by
  induction k with
  | zero => simpa [readCalls] using hdef
  | succ k ih =>
    rw [List.range_succ, List.foldl_append] at hdef ⊢
    simp only [List.foldl_cons, List.foldl_nil] at hdef ⊢
    generalize (List.range k).foldl (readRow C s ds t w band) st = prev at *
    have hprev : prev.defined = true := by
      cases hp : prev.defined with
      | true => rfl
      | false =>
        have := readRow_foldl_undefined C s ds t w band prev [k] hp
        simp only [List.foldl_cons, List.foldl_nil] at this
        rw [this, hp] at hdef
        exact absurd hdef Bool.false_ne_true
    obtain ⟨h1, h2⟩ := ih hprev
    refine ⟨h1, ?_⟩
    unfold readRow at hdef ⊢
    rw [if_pos hprev] at hdef ⊢
    by_cases hov : k * w ≤ INT_MAX
    · rw [if_pos hov]
      simp [h2, readCalls, List.range_succ]
    · rw [if_neg hov] at hdef
      exact absurd hdef Bool.false_ne_true

/-- A row loop whose last offset leaves the range of `int` ends undefined. -/
theorem readRow_foldl_overflow {σ α : Type} (C : Codec σ α) (s : σ) (ds : Handle)
    (t : GDALDataType) (w band : Nat) (st : RState α) (h : Nat) (hh : 1 ≤ h)
    (hov : INT_MAX < (h - 1) * w) :
    ((List.range h).foldl (readRow C s ds t w band) st).defined = false := by
  obtain ⟨m, rfl⟩ : ∃ m, h = m + 1 := ⟨h - 1, by omega⟩
  rw [List.range_succ, List.foldl_append]
  simp only [List.foldl_cons, List.foldl_nil, Nat.add_sub_cancel] at hov ⊢
  generalize (List.range m).foldl (readRow C s ds t w band) st = prev
  unfold readRow
  cases hp : prev.defined with
  | false => simp [hp]
  | true =>
    have hno : ¬ m * w ≤ INT_MAX := by omega
    simp [hno]

/-- After `k` turns of the row loop, no offset having left the range of `int`,
the rows `0 .. k-1` of the band buffer hold what GDAL delivered, the rest of
the buffer is untouched, `rowTmp` holds the last row delivered, and one read
call per row has been logged. -/
theorem readRow_foldl {σ α : Type} (C : Codec σ α) (s : σ) (ds : Handle)
    (t : GDALDataType) (w band : Nat) (b : Slot α) (tmp : Nat → α) (log : List Call)
    (k : Nat) (hov : ∀ r : Nat, r < k → r * w ≤ INT_MAX) :
    (List.range k).foldl (readRow C s ds t w band)
        { slot := b, rowTmp := tmp, calls := log, defined := true } =
      { slot := b.map (fun init => init.mapIdx fun i x =>
          if i < k * w then scratchRows C s ds t w band tmp (i / w + 1) (i % w) else x),
        rowTmp := scratchRows C s ds t w band tmp k,
        calls := log ++ (List.range k).map fun row => Call.rasterRead ds band row w t,
        defined := true } := by
  induction k with
  | zero =>
    cases b with
    | none => simp [scratchRows]
    | some init =>
      simp only [List.range_zero, List.foldl_nil, Option.map_some', Nat.zero_mul,
        Nat.not_lt_zero, if_false, List.map_nil, List.append_nil, scratchRows,
        RState.mk.injEq, Option.some.injEq, and_true, true_and]
      apply List.ext_getElem (by simp)
      intro i h1 h2
      simp
  | succ k ih =>
    have hk : k * w ≤ INT_MAX := hov k (Nat.lt_succ_self k)
    rw [List.range_succ, List.foldl_append, ih (fun r hr => hov r (Nat.lt_succ_of_lt hr))]
    cases b with
    | none => simp [readRow, hk, scratchRows]
    | some init =>
      simp only [List.foldl_cons, List.foldl_nil, readRow, if_true, hk, Option.map_some',
        List.map_append, List.map_cons, List.map_nil, List.append_assoc, scratchRows,
        RState.mk.injEq, Option.some.injEq, and_true, true_and]
      apply List.ext_getElem (by simp [memcpyRow])
      intro i h1 h2
      have hi : i < init.length := by simpa using h2
      simp only [memcpyRow, List.getElem_mapIdx]
      by_cases hlo : i < k * w
      · have h3 : ¬ (k * w ≤ i ∧ i < k * w + w) := by omega
        have h4 : i < (k + 1) * w := by rw [Nat.succ_mul]; omega
        simp [hlo, h3, h4]
      · by_cases hhi : i < k * w + w
        · have h4 : i < (k + 1) * w := by rw [Nat.succ_mul]; omega
          have h5 : k * w ≤ i ∧ i < k * w + w := ⟨by omega, hhi⟩
          have hj : i - k * w < w := by omega
          have hdm := div_mod_of_row w k (i - k * w) hj
          have hik : k * w + (i - k * w) = i := by omega
          rw [hik] at hdm
          simp [h5, h4, hdm.1, hdm.2, scratchRows]
        · have h4 : ¬ i < (k + 1) * w := by rw [Nat.succ_mul]; omega
          have h5 : ¬ (k * w ≤ i ∧ i < k * w + w) := by omega
          simp [hlo, h4, h5]

/-- One turn of the band loop, no offset leaving the range of `int`: slot
`band - 1` receives the band content, `rowTmp` holds the last row of the band,
and the read calls of the band are logged. -/
theorem readBand_eq {σ α : Type} (C : Codec σ α) (s : σ) (ds : Handle)
    (t : GDALDataType) (w h : Nat) (hov : (h - 1) * w ≤ INT_MAX) (buffer : List (Slot α))
    (tmp : Nat → α) (log : List Call) (band : Nat) :
    readBand C s ds t w h { buffer := buffer, rowTmp := tmp, calls := log, defined := true }
        band =
      { buffer := buffer.set (band - 1) (bandContent C s ds t w h band tmp),
        rowTmp := scratchRows C s ds t w band tmp h,
        calls := log ++ readCalls ds t w h band,
        defined := true } := by
  unfold readBand
  simp only [if_true]
  rw [readRow_foldl C s ds t w band _ tmp log h (fun r hr => row_offset_le w h r hr hov)]
  simp only [readCalls, BState.mk.injEq, and_true, true_and]
  congr 1
  unfold bandContent cplMalloc
  by_cases h0 : w * h = 0
  · simp [h0]
  · simp only [h0, if_false, Option.map_some', Option.some.injEq]
    apply List.ext_getElem (by simp)
    intro i h1 h2
    have hi : i < w * h := by simpa using h2
    have hi2 : i < h * w := by rw [Nat.mul_comm]; exact hi
    simp [hi2]

/-- Once an offset has left the range of `int` the band loop changes nothing. -/
theorem readBand_foldl_undefined {σ α : Type} (C : Codec σ α) (s : σ) (ds : Handle)
    (t : GDALDataType) (w h : Nat) (st : BState α) (bands : List Nat)
    (hst : st.defined = false) :
    bands.foldl (readBand C s ds t w h) st = st := by
  induction bands with
  | nil => rfl
  | cons b bands ih => simp [List.foldl_cons, readBand, hst, ih]

/-- After the first `j` turns of the band loop, no offset leaving the range of
`int`, the slots `0 .. j-1` hold the contents of bands `1 .. j`, the other
slots are still null, and the read calls of those bands have been logged, band
after band. -/
theorem readBand_foldl {σ α : Type} (C : Codec σ α) (s : σ) (ds : Handle)
    (t : GDALDataType) (w h n : Nat) (hov : (h - 1) * w ≤ INT_MAX) (log : List Call)
    (j : Nat) (hj : j ≤ n) :
    (List.range' 1 j).foldl (readBand C s ds t w h)
        { buffer := List.replicate n none, rowTmp := C.fresh, calls := log,
          defined := true } =
      { buffer := (List.range j).map (fun b =>
            bandContent C s ds t w h (b + 1) (scratchBands C s ds t w h b))
          ++ List.replicate (n - j) none,
        rowTmp := scratchBands C s ds t w h j,
        calls := log ++ (List.range j).flatMap fun b => readCalls ds t w h (b + 1),
        defined := true } := by
  induction j with
  | zero => simp [scratchBands]
  | succ j ih =>
    have hj1 : j < n := hj
    rw [List.range'_concat, List.foldl_append, ih (Nat.le_of_lt hj1)]
    simp only [List.foldl_cons, List.foldl_nil, readBand_eq C s ds t w h hov, Nat.one_mul]
    have e1 : 1 + j - 1 = j := by omega
    have e2 : n - j = (n - (j + 1)) + 1 := by omega
    rw [e1, List.range_succ, List.map_append, List.flatMap_append, Nat.add_comm 1 j]
    simp only [List.map_cons, List.map_nil, List.flatMap_cons, List.flatMap_nil,
      List.append_nil, List.append_assoc, scratchBands, BState.mk.injEq, and_true, true_and]
    rw [List.set_append_right _ _ (by simp), e2, List.replicate_succ]
    simp

/-- A band loop that ends defined started defined, and logged the read calls of
every band, band after band. -/
theorem readBand_foldl_defined {σ α : Type} (C : Codec σ α) (s : σ) (ds : Handle)
    (t : GDALDataType) (w h : Nat) (st : BState α) (j : Nat)
    (hdef : ((List.range' 1 j).foldl (readBand C s ds t w h) st).defined = true) :
    st.defined = true ∧
    ((List.range' 1 j).foldl (readBand C s ds t w h) st).calls =
      st.calls ++ (List.range j).flatMap fun b => readCalls ds t w h (b + 1) := by
  induction j with
  | zero => simpa using hdef
  | succ j ih =>
    rw [List.range'_concat, List.foldl_append] at hdef ⊢
    simp only [List.foldl_cons, List.foldl_nil, Nat.one_mul] at hdef ⊢
    generalize (List.range' 1 j).foldl (readBand C s ds t w h) st = prev at *
    have hprev : prev.defined = true := by
      cases hp : prev.defined with
      | true => rfl
      | false =>
        have := readBand_foldl_undefined C s ds t w h prev [1 + j] hp
        simp only [List.foldl_cons, List.foldl_nil] at this
        rw [this, hp] at hdef
        exact absurd hdef Bool.false_ne_true
    obtain ⟨h1, h2⟩ := ih hprev
    refine ⟨h1, ?_⟩
    unfold readBand at hdef ⊢
    rw [if_pos hprev] at hdef ⊢
    simp only at hdef ⊢
    have h3 := (readRow_foldl_defined C s ds t w (1 + j) _ h hdef).2
    rw [h3, h2, List.range_succ, List.flatMap_append, Nat.add_comm 1 j]
    simp

/-- A band loop of at least one band whose last row offset leaves the range of
`int` ends undefined. -/
theorem readBand_foldl_overflow {σ α : Type} (C : Codec σ α) (s : σ) (ds : Handle)
    (t : GDALDataType) (w h n : Nat) (st : BState α) (hn : 1 ≤ n) (hh : 1 ≤ h)
    (hov : INT_MAX < (h - 1) * w) :
    ((List.range' 1 n).foldl (readBand C s ds t w h) st).defined = false := by
  obtain ⟨m, rfl⟩ : ∃ m, n = m + 1 := ⟨n - 1, by omega⟩
  rw [List.range'_succ, List.foldl_cons]
  have hfirst : (readBand C s ds t w h st 1).defined = false := by
    unfold readBand
    cases hp : st.defined with
    | false => simp [hp]
    | true =>
      simp only [if_true]
      exact readRow_foldl_overflow C s ds t w 1 _ h hh hov
  rw [readBand_foldl_undefined C s ds t w h _ _ hfirst]
  exact hfirst

/-! ## Outcomes of `image2Buffer` -/

/-- Closed form of `image2Buffer` on a path GDAL does not open. -/
theorem image2Buffer_not_opened {σ α : Type} (T : CType) (C : Codec σ α)
    (s : σ) (imagepath : String) (buffer : List (Slot α)) (dimensions : List Int)
    (initGDAL : Bool) (s1 : σ)
    (hopen : C.gdalOpen (if initGDAL then C.allRegister s else s) imagepath = (s1, none)) :
    image2Buffer T C s imagepath buffer dimensions initGDAL =
      { result := Outcome.returned false, buffer := buffer, dimensions := dimensions,
        world := s1,
        calls := (if initGDAL then [Call.allRegister] else []) ++ [Call.gdalOpen imagepath] } := by
  unfold image2Buffer
  simp only [hopen]

/-- Closed form of `image2Buffer` on a path GDAL opens, the band count and the
row offsets staying in the range of `int`. -/
theorem image2Buffer_opened {σ α : Type} (T : CType) (C : Codec σ α) (s : σ)
    (imagepath : String) (buffer : List (Slot α)) (dimensions : List Int)
    (initGDAL : Bool) (s1 : σ) (ds : Handle)
    (hopen : C.gdalOpen (if initGDAL then C.allRegister s else s) imagepath = (s1, some ds))
    (hbands : C.getRasterCount s1 ds < INT_MAX)
    (hov : (C.getRasterYSize s1 ds - 1) * C.getRasterXSize s1 ds ≤ INT_MAX) :
    image2Buffer T C s imagepath buffer dimensions initGDAL =
      { result := Outcome.returned true,
        buffer := (List.range (C.getRasterCount s1 ds)).map fun b =>
          bandContent C s1 ds (toGDALDataType T) (C.getRasterXSize s1 ds)
            (C.getRasterYSize s1 ds) (b + 1)
            (scratchBands C s1 ds (toGDALDataType T) (C.getRasterXSize s1 ds)
              (C.getRasterYSize s1 ds) b),
        dimensions := [(C.getRasterXSize s1 ds : Int), (C.getRasterYSize s1 ds : Int),
          (C.getRasterCount s1 ds : Int)],
        world := C.close s1 ds,
        calls := (if initGDAL then [Call.allRegister] else []) ++ [Call.gdalOpen imagepath]
          ++ ((List.range (C.getRasterCount s1 ds)).flatMap fun b =>
              readCalls ds (toGDALDataType T) (C.getRasterXSize s1 ds)
                (C.getRasterYSize s1 ds) (b + 1))
          ++ [Call.close ds] } := by
  unfold image2Buffer
  simp only [hopen]
  rw [if_pos (Nat.succ_le_of_lt hbands), readBand_foldl C s1 ds _ _ _ _ hov _ _ (Nat.le_refl _)]
  simp

/-- When `image2Buffer` returns `true` it has logged the read calls of every
band and row and then closed the dataset. -/
theorem image2Buffer_success {σ α : Type} (T : CType) (C : Codec σ α) (s : σ)
    (imagepath : String) (buffer : List (Slot α)) (dimensions : List Int)
    (initGDAL : Bool) (s1 : σ) (ds : Handle)
    (hopen : C.gdalOpen (if initGDAL then C.allRegister s else s) imagepath = (s1, some ds))
    (hres : (image2Buffer T C s imagepath buffer dimensions initGDAL).result
      = Outcome.returned true) :
    (image2Buffer T C s imagepath buffer dimensions initGDAL).calls =
        (if initGDAL then [Call.allRegister] else []) ++ [Call.gdalOpen imagepath]
          ++ ((List.range (C.getRasterCount s1 ds)).flatMap fun b =>
              readCalls ds (toGDALDataType T) (C.getRasterXSize s1 ds)
                (C.getRasterYSize s1 ds) (b + 1))
          ++ [Call.close ds] ∧
    (image2Buffer T C s imagepath buffer dimensions initGDAL).world = C.close s1 ds := by
  unfold image2Buffer at hres ⊢
  simp only [hopen] at hres ⊢
  by_cases hb : C.getRasterCount s1 ds + 1 ≤ INT_MAX
  · rw [if_pos hb] at hres ⊢
    generalize hst : (List.range' 1 (C.getRasterCount s1 ds)).foldl
      (readBand C s1 ds (toGDALDataType T) (C.getRasterXSize s1 ds) (C.getRasterYSize s1 ds))
      _ = st at hres ⊢
    cases hd : st.defined with
    | true =>
      have hdef := hd
      rw [← hst] at hdef
      have hcalls := (readBand_foldl_defined C s1 ds (toGDALDataType T) _ _ _ _ hdef).2
      rw [hst] at hcalls
      simp only [if_true, hcalls, and_self]
    | false =>
      rw [hd] at hres
      simp at hres
  · rw [if_neg hb] at hres
    cases hres

/-- On a path GDAL opens, with at least one band and a last row offset beyond
the range of `int`, `image2Buffer` leaves defined behaviour. -/
theorem image2Buffer_overflow {σ α : Type} (T : CType) (C : Codec σ α) (s : σ)
    (imagepath : String) (buffer : List (Slot α)) (dimensions : List Int)
    (initGDAL : Bool) (s1 : σ) (ds : Handle)
    (hopen : C.gdalOpen (if initGDAL then C.allRegister s else s) imagepath = (s1, some ds))
    (hn : 1 ≤ C.getRasterCount s1 ds) (hh : 1 ≤ C.getRasterYSize s1 ds)
    (hov : INT_MAX < (C.getRasterYSize s1 ds - 1) * C.getRasterXSize s1 ds) :
    (image2Buffer T C s imagepath buffer dimensions initGDAL).result = Outcome.undefined := by
  unfold image2Buffer
  simp only [hopen]
  by_cases hb : C.getRasterCount s1 ds + 1 ≤ INT_MAX
  · rw [if_pos hb]
    simp [readBand_foldl_overflow C s1 ds (toGDALDataType T) _ _ _ _ hn hh hov]
  · rw [if_neg hb]

/-- The element at index `r * w + c` of the band buffer `image2Buffer` builds is
what the read call of row `r` left in `rowTmp` at column `c`. -/
theorem bandContent_getElem {σ α : Type} (C : Codec σ α) (s : σ) (ds : Handle)
    (t : GDALDataType) (w h band : Nat) (tmp : Nat → α) (r c : Nat) (hr : r < h)
    (hc : c < w) :
    (slotElems (bandContent C s ds t w h band tmp))[r * w + c]? =
      some (scratchRows C s ds t w band tmp (r + 1) c) := by
  have hlt : r * w + c < w * h := by
    calc r * w + c < r * w + w := by omega
      _ = (r + 1) * w := by rw [Nat.succ_mul]
      _ ≤ h * w := Nat.mul_le_mul_right w hr
      _ = w * h := Nat.mul_comm h w
  have h0 : w * h ≠ 0 := by omega
  have hdm := div_mod_of_row w r c hc
  unfold bandContent slotElems
  simp [h0, hlt, hdm.1, hdm.2]

/-! ## Claims on `image2Buffer` -/

/-- Once an access has left the caller's arrays the row loop changes nothing. -/
theorem writeRow_foldl_undefined {σ α : Type} (C : Codec σ α) (ds : Handle)
    (t : GDALDataType) (w band : Nat) (buf : List α) (st : WState σ) (rows : List Nat)
    (hst : st.defined = false) :
    rows.foldl (writeRow C ds t w band buf) st = st := by
  induction rows with
  | nil => rfl
  | cons r rows ih => simp [List.foldl_cons, writeRow, hst, ih]

/-- A row loop that ends defined started defined, and logged one write call per
row. -/
theorem writeRow_foldl_defined {σ α : Type} (C : Codec σ α) (ds : Handle)
    (t : GDALDataType) (w band : Nat) (buf : List α) (st : WState σ) (k : Nat)
    (hdef : ((List.range k).foldl (writeRow C ds t w band buf) st).defined = true) :
    st.defined = true ∧
    ((List.range k).foldl (writeRow C ds t w band buf) st).calls =
      st.calls ++ writeCalls ds t w k band := by
  induction k with
  | zero => simpa [writeCalls] using hdef
  | succ k ih =>
    rw [List.range_succ, List.foldl_append] at hdef ⊢
    simp only [List.foldl_cons, List.foldl_nil] at hdef ⊢
    generalize (List.range k).foldl (writeRow C ds t w band buf) st = prev at *
    have hprev : prev.defined = true := by
      cases hp : prev.defined with
      | true => rfl
      | false =>
        have := writeRow_foldl_undefined C ds t w band buf prev [k] hp
        simp only [List.foldl_cons, List.foldl_nil] at this
        rw [this, hp] at hdef
        exact absurd hdef Bool.false_ne_true
    obtain ⟨h1, h2⟩ := ih hprev
    refine ⟨h1, ?_⟩
    unfold writeRow at hdef ⊢
    rw [if_pos hprev] at hdef ⊢
    by_cases hov : k * w ≤ INT_MAX
    · rw [if_pos hov] at hdef ⊢
      by_cases hlen : k * w + w ≤ buf.length
      · rw [if_pos hlen]
        simp [h2, writeCalls, List.range_succ]
      · rw [if_neg hlen] at hdef
        exact absurd hdef Bool.false_ne_true
    · rw [if_neg hov] at hdef
      exact absurd hdef Bool.false_ne_true

/-- A band loop that ends defined started defined, and logged the write calls of
every band, band after band. -/
theorem writeBand_foldl_defined {σ α : Type} (C : Codec σ α) (ds : Handle)
    (t : GDALDataType) (w h : Nat) (buffer : List (Slot α)) (st : WState σ) (j : Nat)
    (hdef : ((List.range j).foldl (writeBand C ds t w h buffer) st).defined = true) :
    st.defined = true ∧
    ((List.range j).foldl (writeBand C ds t w h buffer) st).calls =
      st.calls ++ (List.range j).flatMap fun b => writeCalls ds t w h b := by
  induction j with
  | zero => simpa using hdef
  | succ j ih =>
    rw [List.range_succ, List.foldl_append] at hdef ⊢
    simp only [List.foldl_cons, List.foldl_nil] at hdef ⊢
    generalize hprev : (List.range j).foldl (writeBand C ds t w h buffer) st = prev at *
    unfold writeBand at hdef ⊢
    split at hdef
    · rename_i buf hbuf
      obtain ⟨h1, h2⟩ := writeRow_foldl_defined C ds t w j buf prev h hdef
      obtain ⟨h3, h4⟩ := ih h1
      refine ⟨h3, ?_⟩
      rw [h2, h4, List.flatMap_append]
      simp
    · exact absurd hdef (Bool.false_ne_true)

/-! ## The write loops on the in-memory GDAL -/

theorem getD_concat_length {β : Type} (l : List β) (x d : β) :
    (l ++ [x]).getD l.length d = x := by
  rw [List.getD_eq_getElem?_getD, List.getElem?_append_right (Nat.le_refl _)]
  simp

theorem getD_take_drop {β : Type} (buf : List β) (off w c : Nat) (d : β) (hc : c < w) :
    ((buf.drop off).take w).getD c d = buf.getD (off + c) d := by
  simp only [List.getD_eq_getElem?_getD, List.getElem?_take, hc, if_true, List.getElem?_drop]

theorem withOpen_raster {α : Type} (s : MemWorld α) (path : String) (img : Raster α) :
    (s.withOpen path img).raster s.handles.length = some img := by
  simp [MemWorld.raster, MemWorld.withOpen, getD_concat_length]

theorem withOpen_store {α : Type} (s : MemWorld α) (path : String) (img img2 : Raster α) :
    (s.withOpen path img).store path img2 = s.withOpen path img2 := by
  simp only [MemWorld.store, MemWorld.withOpen, MemWorld.mk.injEq, true_and, and_true]
  funext p
  by_cases hp : p = path <;> simp [hp]

/-- A row written to a dataset of the in-memory GDAL, inside the raster and
with a known type, replaces that row of the file and nothing else. -/
theorem memGDAL_rasterWrite {α : Type} [Inhabited α] (s : MemWorld α) (path : String)
    (w h n : Nat) (pix : Nat → Nat → Nat → α) (band row : Nat) (data : List α)
    (t : GDALDataType) (ht : t ≠ GDT_Unknown) (hb1 : 1 ≤ band) (hb2 : band ≤ n)
    (hr : row < h) :
    (memGDAL α).rasterWrite (s.withOpen path ⟨w, h, n, pix⟩) s.handles.length band row w
        data t =
      (s.withOpen path ⟨w, h, n, fun b r c =>
          if b = band ∧ r = row ∧ c < w then data.getD c default else pix b r c⟩,
       CE_None) := by
  have hwin : (Raster.mk w h n pix).window band row w = true := by
    simp [Raster.window, hb1, hb2, hr]
  have hpath : (s.withOpen path ⟨w, h, n, pix⟩).handles.getD s.handles.length none
      = some path := by
    simp [MemWorld.withOpen, getD_concat_length]
  simp only [memGDAL, ht, if_false, hpath, withOpen_raster, hwin, if_true, withOpen_store]

/-- The row loop of `buffer2Image` on the in-memory GDAL: rows `0 .. k-1` of the
band are in the file, everything else is as before. -/
theorem memGDAL_writeRow_foldl {α : Type} [Inhabited α] (s : MemWorld α) (path : String)
    (w h n : Nat) (t : GDALDataType) (ht : t ≠ GDT_Unknown) (band : Nat) (hband : band < n)
    (buf : List α) (hbuf : buf.length = w * h) (hov : (h - 1) * w ≤ INT_MAX)
    (pix : Nat → Nat → Nat → α) (log : List Call) (k : Nat) (hk : k ≤ h) :
    (List.range k).foldl (writeRow (memGDAL α) s.handles.length t w band buf)
        { world := s.withOpen path ⟨w, h, n, pix⟩, calls := log, defined := true } =
      { world := s.withOpen path ⟨w, h, n, rowsWritten w band k buf pix⟩,
        calls := log ++ writeCalls s.handles.length t w k band,
        defined := true } := by
  induction k with
  | zero =>
    simp only [List.range_zero, List.foldl_nil, writeCalls, List.map_nil, List.append_nil,
      WState.mk.injEq, and_true]
    congr 2
    funext b r c
    simp [rowsWritten]
  | succ k ih =>
    have hk1 : k < h := hk
    rw [List.range_succ, List.foldl_append, ih (Nat.le_of_lt hk1)]
    have hlen : k * w + w ≤ buf.length := by
      rw [hbuf, Nat.mul_comm w h]
      calc k * w + w = (k + 1) * w := by rw [Nat.succ_mul]
        _ ≤ h * w := Nat.mul_le_mul_right w hk1
    have hoff : k * w ≤ INT_MAX := row_offset_le w h k hk1 hov
    simp only [List.foldl_cons, List.foldl_nil, writeRow, if_true, hlen, hoff,
      memGDAL_rasterWrite s path w h n _ (band + 1) k _ t ht (by omega) (by omega) hk1,
      writeCalls, List.range_succ, List.map_append, List.map_cons, List.map_nil,
      List.append_assoc, WState.mk.injEq, and_true]
    congr 2
    funext b r c
    simp only [rowsWritten]
    by_cases hc : c < w
    · by_cases hb : b = band + 1
      · by_cases hr : r = k
        · subst hr
          simp [hb, hc, getD_take_drop]
        · have : r < k + 1 ↔ r < k := by omega
          simp [hb, hc, hr, this]
      · simp [hb]
    · simp [hc]

/-- Slot `b` of a well formed buffer collection is a buffer of `w * h` elements. -/
theorem wellFormed_slot {α : Type} (buffer : List (Slot α)) (w h n : Nat)
    (hgood : wellFormed buffer w h n) (b : Nat) (hb : b < n) :
    ∃ buf : List α, buffer[b]? = some (some buf) ∧ buf.length = w * h := by
  have hlt : b < buffer.length := by rw [hgood.1]; exact hb
  have hmem := hgood.2 buffer[b] (List.getElem_mem hlt)
  cases hs : buffer[b] with
  | none => rw [hs] at hmem; simp at hmem
  | some buf =>
    rw [hs] at hmem
    exact ⟨buf, by rw [List.getElem?_eq_getElem hlt, hs], by simpa using hmem⟩

/-- The band loop of `buffer2Image` on the in-memory GDAL, for a well formed
buffer collection: bands `1 .. j` of the file hold slots `0 .. j-1`. -/
theorem memGDAL_writeBand_foldl {α : Type} [Inhabited α] (s : MemWorld α) (path : String)
    (w h n : Nat) (t : GDALDataType) (ht : t ≠ GDT_Unknown) (buffer : List (Slot α))
    (hgood : wellFormed buffer w h n) (hov : (h - 1) * w ≤ INT_MAX) (log : List Call)
    (j : Nat) (hj : j ≤ n) :
    (List.range j).foldl (writeBand (memGDAL α) s.handles.length t w h buffer)
        { world := s.withOpen path ⟨w, h, n, fun _ _ _ => default⟩, calls := log,
          defined := true } =
      { world := s.withOpen path ⟨w, h, n, bandsWritten w h j buffer⟩,
        calls := log ++ (List.range j).flatMap fun b => writeCalls s.handles.length t w h b,
        defined := true } := by
  induction j with
  | zero =>
    simp only [List.range_zero, List.foldl_nil, List.flatMap_nil, List.append_nil,
      WState.mk.injEq, and_true]
    congr 2
    funext b r c
    have : ¬ (1 ≤ b ∧ b ≤ 0 ∧ r < h ∧ c < w) := by omega
    simp only [bandsWritten, this, if_false]
  | succ j ih =>
    have hj1 : j < n := hj
    obtain ⟨buf, hslot, hlen⟩ := wellFormed_slot buffer w h n hgood j hj1
    rw [List.range_succ, List.foldl_append, ih (Nat.le_of_lt hj1)]
    simp only [List.foldl_cons, List.foldl_nil, writeBand, hslot]
    rw [memGDAL_writeRow_foldl s path w h n t ht j hj1 buf hlen hov _ _ h (Nat.le_refl _)]
    simp only [List.flatMap_append, List.flatMap_cons, List.flatMap_nil, List.append_nil,
      List.append_assoc, WState.mk.injEq, and_true]
    congr 2
    funext b r c
    have hget : buffer.getD j none = some buf := by
      rw [List.getD_eq_getElem?_getD, hslot]; rfl
    simp only [rowsWritten, bandsWritten]
    by_cases hb : b = j + 1
    · subst hb
      by_cases hrc : r < h ∧ c < w
      · have h1 : 1 ≤ j + 1 ∧ j + 1 ≤ j + 1 ∧ r < h ∧ c < w := ⟨by omega, by omega, hrc.1, hrc.2⟩
        rw [if_pos ⟨rfl, hrc⟩, if_pos h1, Nat.add_sub_cancel, hget]
        rfl
      · have h1 : ¬ (j + 1 = j + 1 ∧ r < h ∧ c < w) := fun hx => hrc hx.2
        have h2 : ¬ (1 ≤ j + 1 ∧ j + 1 ≤ j ∧ r < h ∧ c < w) := by omega
        have h3 : ¬ (1 ≤ j + 1 ∧ j + 1 ≤ j + 1 ∧ r < h ∧ c < w) := fun hx => hrc hx.2.2
        rw [if_neg h1, if_neg h2, if_neg h3]
    · have h1 : ¬ (b = j + 1 ∧ r < h ∧ c < w) := fun hx => hb hx.1
      have h2 : (1 ≤ b ∧ b ≤ j + 1 ∧ r < h ∧ c < w) ↔ (1 ≤ b ∧ b ≤ j ∧ r < h ∧ c < w) := by
        omega
      simp only [h1, h2, if_false]

theorem invalidDimensions_ofNat (w h n : Nat) (hw : 1 ≤ w) (hh : 1 ≤ h) (hn : 1 ≤ n) :
    ¬ invalidDimensions [(w : Int), (h : Int), (n : Int)] := by
  unfold invalidDimensions
  simp only [List.length_cons, List.length_nil, List.getD_cons_zero, List.getD_cons_succ]
  omega

/-- Closed form of `buffer2Image` on the in-memory GDAL for a supported element
type, a registered driver and a well formed buffer collection. -/
theorem memGDAL_buffer2Image {α : Type} [Inhabited α] (T : CType)
    (hT : toGDALDataType T ≠ GDT_Unknown) (s : MemWorld α) (buffer : List (Slot α))
    (w h n : Nat) (hw : 1 ≤ w) (hh : 1 ≤ h) (hn : 1 ≤ n) (hgood : wellFormed buffer w h n)
    (hov : (h - 1) * w ≤ INT_MAX) (path driver : String) (initGDAL : Bool)
    (hdrv : driver ∈ (if initGDAL then (memGDAL α).allRegister s else s).drivers) :
    buffer2Image T (memGDAL α) s buffer [(w : Int), (h : Int), (n : Int)] path driver
        initGDAL =
      { result := Outcome.returned true,
        world := (if initGDAL then (memGDAL α).allRegister s else s).written path w h n buffer,
        calls := (if initGDAL then [Call.allRegister] else []) ++
          [Call.getDriverByName driver,
           Call.create driver path w h n (toGDALDataType T)] ++
          ((List.range n).flatMap fun b =>
            writeCalls (if initGDAL then (memGDAL α).allRegister s else s).handles.length
              (toGDALDataType T) w h b) ++
          [Call.close (if initGDAL then (memGDAL α).allRegister s else s).handles.length] } := by
  generalize hs0 : (if initGDAL then (memGDAL α).allRegister s else s) = s0 at *
  have hlook : (memGDAL α).getDriverByName s0 driver = some driver := by
    simp [memGDAL, hdrv]
  have hcreate : (memGDAL α).create s0 driver path (w : Int) (h : Int) (n : Int)
      (toGDALDataType T) =
      (s0.withOpen path ⟨w, h, n, fun _ _ _ => default⟩, some s0.handles.length) := by
    simp [memGDAL, hT, MemWorld.withOpen, MemWorld.store]
  unfold buffer2Image
  rw [if_neg (invalidDimensions_ofNat w h n hw hh hn)]
  simp only [hs0, hlook, List.getD_cons_zero, List.getD_cons_succ, hcreate, Int.toNat_ofNat]
  rw [memGDAL_writeBand_foldl s0 path w h n _ hT buffer hgood hov _ n (Nat.le_refl _)]
  simp [memGDAL, MemWorld.withOpen, MemWorld.written]

/-! ## Reading a file of the in-memory GDAL -/

/-- With invalid dimensions `buffer2Image` returns `false` at once. -/
theorem buffer2Image_invalid {σ α : Type} (T : CType) (C : Codec σ α) (s : σ)
    (buffer : List (Slot α)) (dimensions : List Int) (imagepath driver : String)
    (initGDAL : Bool) (hdim : invalidDimensions dimensions) :
    buffer2Image T C s buffer dimensions imagepath driver initGDAL =
      { result := Outcome.returned false, world := s, calls := [] } := by
  unfold buffer2Image
  rw [if_pos hdim]

/-- With valid dimensions and a driver name GDAL does not know, `buffer2Image`
calls `Create` through the null pointer. -/
theorem buffer2Image_no_driver {σ α : Type} (T : CType) (C : Codec σ α) (s : σ)
    (buffer : List (Slot α)) (dimensions : List Int) (imagepath driver : String)
    (initGDAL : Bool) (hdim : ¬ invalidDimensions dimensions)
    (hdrv : C.getDriverByName (if initGDAL then C.allRegister s else s) driver = none) :
    buffer2Image T C s buffer dimensions imagepath driver initGDAL =
      { result := Outcome.undefined, world := if initGDAL then C.allRegister s else s,
        calls := (if initGDAL then [Call.allRegister] else [])
          ++ [Call.getDriverByName driver] } := by
  unfold buffer2Image
  rw [if_neg hdim]
  simp only [hdrv]

/-- With valid dimensions and a driver, `buffer2Image` returns `false` when
`Create` yields no dataset; no row is written. -/
theorem buffer2Image_no_image {σ α : Type} (T : CType) (C : Codec σ α) (s : σ)
    (buffer : List (Slot α)) (dimensions : List Int) (imagepath driver : String)
    (initGDAL : Bool) (hdim : ¬ invalidDimensions dimensions) (poDriver : Driver)
    (hdrv : C.getDriverByName (if initGDAL then C.allRegister s else s) driver
      = some poDriver) (s1 : σ)
    (hcreate : C.create (if initGDAL then C.allRegister s else s) poDriver imagepath
      (dimensions.getD 0 0) (dimensions.getD 1 0) (dimensions.getD 2 0) (toGDALDataType T)
      = (s1, none)) :
    buffer2Image T C s buffer dimensions imagepath driver initGDAL =
      { result := Outcome.returned false, world := s1,
        calls := (if initGDAL then [Call.allRegister] else [])
          ++ [Call.getDriverByName driver,
              Call.create poDriver imagepath (dimensions.getD 0 0) (dimensions.getD 1 0)
                (dimensions.getD 2 0) (toGDALDataType T)] } := by
  unfold buffer2Image
  rw [if_neg hdim]
  simp only [hdrv, hcreate]

/-- With valid dimensions, a driver and a created dataset, `buffer2Image` does
not return `false`: it returns `true` after the write calls of every band and
the closing of the dataset, or an access left the caller's buffers. -/
theorem buffer2Image_created {σ α : Type} (T : CType) (C : Codec σ α) (s : σ)
    (buffer : List (Slot α)) (dimensions : List Int) (imagepath driver : String)
    (initGDAL : Bool) (hdim : ¬ invalidDimensions dimensions) (poDriver : Driver)
    (hdrv : C.getDriverByName (if initGDAL then C.allRegister s else s) driver
      = some poDriver) (s1 : σ) (image : Handle)
    (hcreate : C.create (if initGDAL then C.allRegister s else s) poDriver imagepath
      (dimensions.getD 0 0) (dimensions.getD 1 0) (dimensions.getD 2 0) (toGDALDataType T)
      = (s1, some image)) :
    (buffer2Image T C s buffer dimensions imagepath driver initGDAL).result
        = Outcome.undefined ∨
    ((buffer2Image T C s buffer dimensions imagepath driver initGDAL).result
        = Outcome.returned true ∧
     (buffer2Image T C s buffer dimensions imagepath driver initGDAL).calls =
        (if initGDAL then [Call.allRegister] else [])
          ++ [Call.getDriverByName driver,
              Call.create poDriver imagepath (dimensions.getD 0 0) (dimensions.getD 1 0)
                (dimensions.getD 2 0) (toGDALDataType T)]
          ++ ((List.range (dimensions.getD 2 0).toNat).flatMap fun b =>
              writeCalls image (toGDALDataType T) (dimensions.getD 0 0).toNat
                (dimensions.getD 1 0).toNat b)
          ++ [Call.close image]) := by
  unfold buffer2Image
  rw [if_neg hdim]
  simp only [hdrv, hcreate]
  generalize hst : (List.range (dimensions.getD 2 0).toNat).foldl
    (writeBand C image (toGDALDataType T) (dimensions.getD 0 0).toNat
      (dimensions.getD 1 0).toNat buffer) _ = st
  cases hd : st.defined with
  | true =>
    right
    have hdef := hd
    rw [← hst] at hdef
    have hcalls := (writeBand_foldl_defined C image (toGDALDataType T) _ _ buffer _ _ hdef).2
    rw [hst] at hcalls
    simp only [if_true, hcalls, true_and]
  | false =>
    left
    simp


/-- C4. When `dimensions` has fewer than three entries, or its width, height or
band count is below 1, `buffer2Image` returns `false` and makes no call on GDAL
(no registration, no driver lookup, no creation, no row write): the call log is
empty and the state of GDAL is the one before the call, whatever the buffers,
path, driver name and `initGDAL` are. -/
theorem c4_invalid_dimensions_no_call {σ α : Type} (T : CType) (C : Codec σ α) (s : σ)
    (buffer : List (Slot α)) (dimensions : List Int) (imagepath driver : String)
    (initGDAL : Bool)
    (hdim : dimensions.length < 3 ∨ dimensions.getD 0 0 < 1 ∨ dimensions.getD 1 0 < 1
      ∨ dimensions.getD 2 0 < 1) :
    (buffer2Image T C s buffer dimensions imagepath driver initGDAL).result
      = Outcome.returned false ∧
    (buffer2Image T C s buffer dimensions imagepath driver initGDAL).calls = [] ∧
    (buffer2Image T C s buffer dimensions imagepath driver initGDAL).world = s := by
  rw [buffer2Image_invalid T C s buffer dimensions imagepath driver initGDAL hdim]
  exact ⟨rfl, rfl, rfl⟩

/-- C4, at concrete inputs: a height of 0, and a vector of two entries. -/
theorem c4_invalid_dimensions_no_call_witness :
    ((buffer2Image CType.unsignedChar (memGDAL Nat) demoWorld rampBuffers [4, 0, 2]
        "out.tif" "GTiff" true).result = Outcome.returned false ∧
     (buffer2Image CType.unsignedChar (memGDAL Nat) demoWorld rampBuffers [4, 0, 2]
        "out.tif" "GTiff" true).calls = [] ∧
     (buffer2Image CType.unsignedChar (memGDAL Nat) demoWorld rampBuffers [4, 0, 2]
        "out.tif" "GTiff" true).world = demoWorld) ∧
    ((buffer2Image CType.unsignedChar (memGDAL Nat) demoWorld rampBuffers [4, 3]
        "out.tif" "GTiff" true).result = Outcome.returned false ∧
     (buffer2Image CType.unsignedChar (memGDAL Nat) demoWorld rampBuffers [4, 3]
        "out.tif" "GTiff" true).calls = [] ∧
     (buffer2Image CType.unsignedChar (memGDAL Nat) demoWorld rampBuffers [4, 3]
        "out.tif" "GTiff" true).world = demoWorld) :=
  ⟨c4_invalid_dimensions_no_call CType.unsignedChar (memGDAL Nat) demoWorld rampBuffers
     [4, 0, 2] "out.tif" "GTiff" true (by decide),
   c4_invalid_dimensions_no_call CType.unsignedChar (memGDAL Nat) demoWorld rampBuffers
     [4, 3] "out.tif" "GTiff" true (by decide)⟩

/-- C5 as stated fails: `missing.tif` is not opened, `image2Buffer` returns
`false`, and the caller's vectors, which held a buffer and three dimensions
before the call, still hold them: they are not empty. -/
theorem c5_outputs_not_emptied :
    ((memGDAL Nat).gdalOpen demoWorld "missing.tif").2 = none ∧
    (image2Buffer CType.unsignedChar (memGDAL Nat) demoWorld "missing.tif" [some [7]]
        [1, 1, 1] false).result = Outcome.returned false ∧
    (image2Buffer CType.unsignedChar (memGDAL Nat) demoWorld "missing.tif" [some [7]]
        [1, 1, 1] false).buffer ≠ [] ∧
    (image2Buffer CType.unsignedChar (memGDAL Nat) demoWorld "missing.tif" [some [7]]
        [1, 1, 1] false).dimensions ≠ [] := by
  decide

/-- C5, amended. When GDAL does not open the path, `image2Buffer` returns
`false` and leaves the caller's buffer collection and dimensions as they were
before the call (empty if they were empty). -/
theorem c5_open_failure_leaves_outputs {σ α : Type} [Inhabited α] (T : CType)
    (C : Codec σ α) (s : σ) (imagepath : String) (buffer : List (Slot α))
    (dimensions : List Int) (initGDAL : Bool)
    (hopen : (C.gdalOpen (if initGDAL then C.allRegister s else s) imagepath).2 = none) :
    (image2Buffer T C s imagepath buffer dimensions initGDAL).result
      = Outcome.returned false ∧
    (image2Buffer T C s imagepath buffer dimensions initGDAL).buffer = buffer ∧
    (image2Buffer T C s imagepath buffer dimensions initGDAL).dimensions = dimensions := by
  rcases hres : C.gdalOpen (if initGDAL then C.allRegister s else s) imagepath with ⟨s1, r⟩
  rw [hres] at hopen
  simp only at hopen
  subst hopen
  rw [image2Buffer_not_opened T C s imagepath buffer dimensions initGDAL s1 hres]
  exact ⟨rfl, rfl, rfl⟩

/-- C5 amended, at concrete inputs: vectors that held data, and empty vectors. -/
theorem c5_open_failure_leaves_outputs_witness :
    ((image2Buffer CType.unsignedChar (memGDAL Nat) demoWorld "missing.tif" [some [7]]
        [1, 1, 1] false).result = Outcome.returned false ∧
     (image2Buffer CType.unsignedChar (memGDAL Nat) demoWorld "missing.tif" [some [7]]
        [1, 1, 1] false).buffer = [some [7]] ∧
     (image2Buffer CType.unsignedChar (memGDAL Nat) demoWorld "missing.tif" [some [7]]
        [1, 1, 1] false).dimensions = [1, 1, 1]) ∧
    ((image2Buffer CType.unsignedChar (memGDAL Nat) demoWorld "missing.tif" []
        [] false).result = Outcome.returned false ∧
     (image2Buffer CType.unsignedChar (memGDAL Nat) demoWorld "missing.tif" []
        [] false).buffer = [] ∧
     (image2Buffer CType.unsignedChar (memGDAL Nat) demoWorld "missing.tif" []
        [] false).dimensions = []) :=
  ⟨c5_open_failure_leaves_outputs CType.unsignedChar (memGDAL Nat) demoWorld "missing.tif"
     [some [7]] [1, 1, 1] false (by decide),
   c5_open_failure_leaves_outputs CType.unsignedChar (memGDAL Nat) demoWorld "missing.tif"
     [] [] false (by decide)⟩

/-- C6, the code at the failing input. With valid dimensions `[4, 3, 2]`, well
formed buffers and a driver name GDAL does not know, the driver lookup yields
the null pointer and `buffer2Image` calls `Create` through it: the call does
not return `false`, it leaves defined behaviour right after the lookup. -/
theorem c6_unknown_driver_null_call :
    ¬ invalidDimensions [4, 3, 2] ∧
    wellFormed rampBuffers 4 3 2 ∧
    (memGDAL Nat).getDriverByName demoWorld "NoSuchDriver" = none ∧
    (buffer2Image CType.unsignedChar (memGDAL Nat) demoWorld rampBuffers [4, 3, 2]
        "out.tif" "NoSuchDriver" false).result = Outcome.undefined ∧
    (buffer2Image CType.unsignedChar (memGDAL Nat) demoWorld rampBuffers [4, 3, 2]
        "out.tif" "NoSuchDriver" false).calls = [Call.getDriverByName "NoSuchDriver"] := by
  decide


/-! ## Claims on unmapped element types and on row transfers that fail -/

/-- C8 as stated fails, for both operations.  `signed char` is not mapped
(`toGDALDataType` yields `GDT_Unknown`).  Read: the in-memory GDAL refuses every
row transfer of that type, and `image2Buffer` still returns `true`, with a band
buffer that holds what the row buffer, never initialised, held (`170 + i` on
this machine) and none of the pixels of the file.  Write: on a GDAL whose
creation does not look at the data type `buffer2Image` returns `true`. -/
theorem c8_unmapped_type_reports_success :
    toGDALDataType CType.signedChar = GDT_Unknown ∧
    (image2Buffer CType.signedChar staleGDAL demoWorld "in.tif" [] [] false).result
      = Outcome.returned true ∧
    (image2Buffer CType.signedChar staleGDAL demoWorld "in.tif" [] [] false).buffer
      = [some [170, 171, 170, 171, 170, 171]] ∧
    (image2Buffer CType.unsignedChar staleGDAL demoWorld "in.tif" [] [] false).buffer
      = [some [1, 2, 11, 12, 21, 22]] ∧
    (buffer2Image CType.signedChar (lenientGDAL Nat) demoWorld rampBuffers [4, 3, 2]
        "out.tif" "GTiff" false).result = Outcome.returned true := by
  decide

/-- C8, amended. For an element type `toGDALDataType` maps to `GDT_Unknown`,
neither operation tests the mapped type; it is handed to GDAL.  `image2Buffer`
returns `false` when GDAL does not open the path, and `true` on every path GDAL
opens with a band count and row offsets in the range of `int`, whatever the row
transfers report.  `buffer2Image` returns `false` when the dimensions are
invalid, and when the driver is found and `Create`, called with `GDT_Unknown`,
yields no dataset; it returns `true` only if that call yields a dataset. -/
theorem c8_unmapped_type_left_to_gdal {σ α : Type} (T : CType)
    (hT : toGDALDataType T = GDT_Unknown) (C : Codec σ α) (s : σ) (imagepath : String)
    (prevBuffer : List (Slot α)) (prevDimensions : List Int) (buffer : List (Slot α))
    (dimensions : List Int) (driver : String) (initGDAL : Bool) :
    ((C.gdalOpen (if initGDAL then C.allRegister s else s) imagepath).2 = none →
      (image2Buffer T C s imagepath prevBuffer prevDimensions initGDAL).result
        = Outcome.returned false) ∧
    (∀ (s1 : σ) (ds : Handle),
      C.gdalOpen (if initGDAL then C.allRegister s else s) imagepath = (s1, some ds) →
      C.getRasterCount s1 ds < INT_MAX →
      (C.getRasterYSize s1 ds - 1) * C.getRasterXSize s1 ds ≤ INT_MAX →
      (image2Buffer T C s imagepath prevBuffer prevDimensions initGDAL).result
        = Outcome.returned true) ∧
    (invalidDimensions dimensions →
      (buffer2Image T C s buffer dimensions imagepath driver initGDAL).result
        = Outcome.returned false) ∧
    (∀ poDriver : Driver,
      ¬ invalidDimensions dimensions →
      C.getDriverByName (if initGDAL then C.allRegister s else s) driver = some poDriver →
      (C.create (if initGDAL then C.allRegister s else s) poDriver imagepath
        (dimensions.getD 0 0) (dimensions.getD 1 0) (dimensions.getD 2 0)
        GDT_Unknown).2 = none →
      (buffer2Image T C s buffer dimensions imagepath driver initGDAL).result
        = Outcome.returned false) ∧
    ((buffer2Image T C s buffer dimensions imagepath driver initGDAL).result
        = Outcome.returned true →
      ∃ (poDriver : Driver) (s1 : σ) (image : Handle),
        C.getDriverByName (if initGDAL then C.allRegister s else s) driver = some poDriver ∧
        C.create (if initGDAL then C.allRegister s else s) poDriver imagepath
          (dimensions.getD 0 0) (dimensions.getD 1 0) (dimensions.getD 2 0)
          GDT_Unknown = (s1, some image)) := by
  refine ⟨?_, ?_, ?_, ?_, ?_⟩
  · intro hopen
    rcases hres : C.gdalOpen (if initGDAL then C.allRegister s else s) imagepath with ⟨s1, r⟩
    rw [hres] at hopen
    simp only at hopen
    subst hopen
    rw [image2Buffer_not_opened T C s imagepath prevBuffer prevDimensions initGDAL s1 hres]
  · intro s1 ds hopen hbands hov
    rw [image2Buffer_opened T C s imagepath prevBuffer prevDimensions initGDAL s1 ds hopen
      hbands hov]
  · intro hdim
    rw [buffer2Image_invalid T C s buffer dimensions imagepath driver initGDAL hdim]
  · intro poDriver hdim hdrv hnone
    rcases hcr : C.create (if initGDAL then C.allRegister s else s) poDriver imagepath
      (dimensions.getD 0 0) (dimensions.getD 1 0) (dimensions.getD 2 0)
      (toGDALDataType T) with ⟨s1, r⟩
    rw [hT] at hcr
    rw [hcr] at hnone
    simp only at hnone
    subst hnone
    rw [← hT] at hcr
    rw [buffer2Image_no_image T C s buffer dimensions imagepath driver initGDAL hdim
      poDriver hdrv s1 hcr]
  · intro hres
    by_cases hdim : invalidDimensions dimensions
    · rw [buffer2Image_invalid T C s buffer dimensions imagepath driver initGDAL hdim] at hres
      cases hres
    · cases hdrv : C.getDriverByName (if initGDAL then C.allRegister s else s) driver with
      | none =>
        rw [buffer2Image_no_driver T C s buffer dimensions imagepath driver initGDAL hdim hdrv]
          at hres
        cases hres
      | some poDriver =>
        rcases hcr : C.create (if initGDAL then C.allRegister s else s) poDriver imagepath
          (dimensions.getD 0 0) (dimensions.getD 1 0) (dimensions.getD 2 0)
          (toGDALDataType T) with ⟨s1, r⟩
        cases r with
        | none =>
          rw [buffer2Image_no_image T C s buffer dimensions imagepath driver initGDAL hdim
            poDriver hdrv s1 hcr] at hres
          cases hres
        | some image =>
          rw [hT] at hcr
          exact ⟨poDriver, s1, image, rfl, hcr⟩

/-- C8 amended, at a concrete input: `signed char` on the in-memory GDAL, which
opens `in.tif` and refuses to create a `GDT_Unknown` file. -/
theorem c8_unmapped_type_left_to_gdal_witness :
    toGDALDataType CType.signedChar = GDT_Unknown ∧
    (image2Buffer CType.signedChar (memGDAL Nat) demoWorld "missing.tif" [] [] false).result
      = Outcome.returned false ∧
    (image2Buffer CType.signedChar (memGDAL Nat) demoWorld "in.tif" [] [] false).result
      = Outcome.returned true ∧
    (buffer2Image CType.signedChar (memGDAL Nat) demoWorld rampBuffers [4, 0, 2] "out.tif"
        "GTiff" false).result = Outcome.returned false ∧
    (buffer2Image CType.signedChar (memGDAL Nat) demoWorld rampBuffers [4, 3, 2] "out.tif"
        "GTiff" false).result = Outcome.returned false :=
  ⟨rfl,
   (c8_unmapped_type_left_to_gdal CType.signedChar rfl (memGDAL Nat) demoWorld "missing.tif"
      [] [] rampBuffers [4, 0, 2] "GTiff" false).1 (by decide),
   (c8_unmapped_type_left_to_gdal CType.signedChar rfl (memGDAL Nat) demoWorld "in.tif"
      [] [] rampBuffers [4, 3, 2] "GTiff" false).2.1
      { demoWorld with handles := [some "in.tif"] } 0 rfl (by decide) (by decide),
   (c8_unmapped_type_left_to_gdal CType.signedChar rfl (memGDAL Nat) demoWorld "in.tif"
      [] [] rampBuffers [4, 0, 2] "GTiff" false).2.2.1 (by decide),
   (c8_unmapped_type_left_to_gdal CType.signedChar rfl (memGDAL Nat) demoWorld "in.tif"
      [] [] rampBuffers [4, 3, 2] "GTiff" false).2.2.2.1 "GTiff" (by decide) (by decide)
      (by decide)⟩

/-- C9 as stated fails: on a GDAL whose row transfers all report `CE_Failure`,
`buffer2Image` and `image2Buffer` still return `true`. -/
theorem c9_success_despite_failed_transfers :
    (∀ (s : MemWorld Nat) (ds : Handle) (band row width : Nat) (data : List Nat)
        (t : GDALDataType),
        ((failingGDAL Nat).rasterWrite s ds band row width data t).2 = CE_Failure) ∧
    (∀ (s : MemWorld Nat) (ds : Handle) (band row width : Nat) (t : GDALDataType)
        (rowTmp : Nat → Nat),
        ((failingGDAL Nat).rasterRead s ds band row width t rowTmp).1 = CE_Failure) ∧
    (buffer2Image CType.unsignedChar (failingGDAL Nat) demoWorld rampBuffers [4, 3, 2]
        "out.tif" "GTiff" false).result = Outcome.returned true ∧
    (image2Buffer CType.unsignedChar (failingGDAL Nat) demoWorld "in.tif" [] []
        false).result = Outcome.returned true :=
  ⟨fun _ _ _ _ _ _ _ => rfl, fun _ _ _ _ _ _ _ => rfl, by decide, by decide⟩

/-- C9, amended. Whenever `image2Buffer` or `buffer2Image` returns `true`, the
dataset was opened, or created, the row transfer of every band `1 .. bandCount`
and every row `0 .. height-1` was issued to GDAL (its status is not examined),
and the last call on GDAL closed that dataset. -/
theorem c9_success_means_transfers_issued {σ α : Type} [Inhabited α] (T : CType)
    (C : Codec σ α) (s : σ) (imagepath : String) (prevBuffer : List (Slot α))
    (prevDimensions : List Int) (buffer : List (Slot α)) (dimensions : List Int)
    (driver : String) (initGDAL : Bool) :
    ((image2Buffer T C s imagepath prevBuffer prevDimensions initGDAL).result
        = Outcome.returned true →
      ∃ (s1 : σ) (ds : Handle),
        C.gdalOpen (if initGDAL then C.allRegister s else s) imagepath = (s1, some ds) ∧
        (∀ band row : Nat, 1 ≤ band → band ≤ C.getRasterCount s1 ds →
          row < C.getRasterYSize s1 ds →
          Call.rasterRead ds band row (C.getRasterXSize s1 ds) (toGDALDataType T) ∈
            (image2Buffer T C s imagepath prevBuffer prevDimensions initGDAL).calls) ∧
        (image2Buffer T C s imagepath prevBuffer prevDimensions initGDAL).calls.getLast?
          = some (Call.close ds) ∧
        (image2Buffer T C s imagepath prevBuffer prevDimensions initGDAL).world
          = C.close s1 ds) ∧
    ((buffer2Image T C s buffer dimensions imagepath driver initGDAL).result
        = Outcome.returned true →
      ∃ (poDriver : Driver) (s1 : σ) (image : Handle),
        C.getDriverByName (if initGDAL then C.allRegister s else s) driver = some poDriver ∧
        C.create (if initGDAL then C.allRegister s else s) poDriver imagepath
          (dimensions.getD 0 0) (dimensions.getD 1 0) (dimensions.getD 2 0)
          (toGDALDataType T) = (s1, some image) ∧
        (∀ band row : Nat, 1 ≤ band → (band : Int) ≤ dimensions.getD 2 0 →
          (row : Int) < dimensions.getD 1 0 →
          Call.rasterWrite image band row (dimensions.getD 0 0).toNat (toGDALDataType T) ∈
            (buffer2Image T C s buffer dimensions imagepath driver initGDAL).calls) ∧
        (buffer2Image T C s buffer dimensions imagepath driver initGDAL).calls.getLast?
          = some (Call.close image)) := by
  constructor
  · intro hres
    rcases hopen : C.gdalOpen (if initGDAL then C.allRegister s else s) imagepath with ⟨s1, r⟩
    cases r with
    | none =>
      rw [image2Buffer_not_opened T C s imagepath prevBuffer prevDimensions initGDAL s1 hopen]
        at hres
      cases hres
    | some ds =>
      refine ⟨s1, ds, rfl, ?_⟩
      obtain ⟨hcalls, hworld⟩ := image2Buffer_success T C s imagepath prevBuffer
        prevDimensions initGDAL s1 ds hopen hres
      rw [hcalls]
      refine ⟨?_, List.getLast?_concat _, hworld⟩
      intro band row hb1 hb2 hrow
      simp only [List.mem_append, List.mem_flatMap, List.mem_range, readCalls, List.mem_map]
      left; right
      exact ⟨band - 1, by omega, row, hrow, by rw [Nat.sub_add_cancel hb1]⟩
  · intro hres
    by_cases hdim : invalidDimensions dimensions
    · rw [buffer2Image_invalid T C s buffer dimensions imagepath driver initGDAL hdim] at hres
      cases hres
    · cases hdrv : C.getDriverByName (if initGDAL then C.allRegister s else s) driver with
      | none =>
        rw [buffer2Image_no_driver T C s buffer dimensions imagepath driver initGDAL hdim hdrv]
          at hres
        cases hres
      | some poDriver =>
        rcases hcr : C.create (if initGDAL then C.allRegister s else s) poDriver imagepath
          (dimensions.getD 0 0) (dimensions.getD 1 0) (dimensions.getD 2 0)
          (toGDALDataType T) with ⟨s1, r⟩
        cases r with
        | none =>
          rw [buffer2Image_no_image T C s buffer dimensions imagepath driver initGDAL hdim
            poDriver hdrv s1 hcr] at hres
          cases hres
        | some image =>
          refine ⟨poDriver, s1, image, rfl, hcr, ?_⟩
          rcases buffer2Image_created T C s buffer dimensions imagepath driver initGDAL
            hdim poDriver hdrv s1 image hcr with hc | ⟨_, hcalls⟩
          · rw [hc] at hres; cases hres
          · rw [hcalls]
            refine ⟨?_, List.getLast?_concat _⟩
            intro band row hb1 hb2 hrow
            simp only [List.mem_append, List.mem_flatMap, List.mem_range, writeCalls,
              List.mem_map]
            left; right
            exact ⟨band - 1, by omega, row, by omega, by rw [Nat.sub_add_cancel hb1]⟩

/-- C9 amended, at concrete inputs: the ramp buffers written to `ramp.tif`, and
`in.tif` read, both with success. -/
theorem c9_success_means_transfers_issued_witness :
    (image2Buffer CType.unsignedChar (memGDAL Nat) demoWorld "in.tif" [] []
        false).result = Outcome.returned true ∧
    (buffer2Image CType.unsignedChar (memGDAL Nat) demoWorld rampBuffers [4, 3, 2]
        "ramp.tif" "GTiff" false).result = Outcome.returned true ∧
    (∃ (s1 : MemWorld Nat) (ds : Handle),
        (memGDAL Nat).gdalOpen demoWorld "in.tif" = (s1, some ds) ∧
        (∀ band row : Nat, 1 ≤ band → band ≤ (memGDAL Nat).getRasterCount s1 ds →
          row < (memGDAL Nat).getRasterYSize s1 ds →
          Call.rasterRead ds band row ((memGDAL Nat).getRasterXSize s1 ds) GDT_Byte ∈
            (image2Buffer CType.unsignedChar (memGDAL Nat) demoWorld "in.tif" [] []
              false).calls) ∧
        (image2Buffer CType.unsignedChar (memGDAL Nat) demoWorld "in.tif" [] []
          false).calls.getLast? = some (Call.close ds) ∧
        (image2Buffer CType.unsignedChar (memGDAL Nat) demoWorld "in.tif" [] []
          false).world = (memGDAL Nat).close s1 ds) ∧
    (∃ (poDriver : Driver) (s1 : MemWorld Nat) (image : Handle),
        (memGDAL Nat).getDriverByName demoWorld "GTiff" = some poDriver ∧
        (memGDAL Nat).create demoWorld poDriver "ramp.tif" 4 3 2 GDT_Byte
          = (s1, some image) ∧
        (∀ band row : Nat, 1 ≤ band → (band : Int) ≤ 2 → (row : Int) < 3 →
          Call.rasterWrite image band row 4 GDT_Byte ∈
            (buffer2Image CType.unsignedChar (memGDAL Nat) demoWorld rampBuffers [4, 3, 2]
              "ramp.tif" "GTiff" false).calls) ∧
        (buffer2Image CType.unsignedChar (memGDAL Nat) demoWorld rampBuffers [4, 3, 2]
          "ramp.tif" "GTiff" false).calls.getLast? = some (Call.close image)) :=
  ⟨by decide, by decide,
   (c9_success_means_transfers_issued CType.unsignedChar (memGDAL Nat) demoWorld "in.tif"
      [] [] rampBuffers [4, 3, 2] "GTiff" false).1 (by decide),
   (c9_success_means_transfers_issued CType.unsignedChar (memGDAL Nat) demoWorld "ramp.tif"
      [] [] rampBuffers [4, 3, 2] "GTiff" false).2 (by decide)⟩

/-! ## Claim on the layout of a band buffer -/

/-- C10 as stated fails. `in.tif` has 2 columns and 3 rows; the pixel at row 1,
column 0 is 11 and sits at index `1 * 2 + 0` of the buffer `image2Buffer`
builds, while index `1 * 3 + 0`, the one the class comment gives, holds 12, and
index `2 * 3 + 1`, the one it gives for the last pixel, is outside the buffer.
And for an image of 2147483647 columns and 3 rows no layout holds: the offset
`row * dimensions[0]` of the last row is outside the range of `int`, and
`image2Buffer` does not return. -/
theorem c10_documented_index_is_wrong :
    (image2Buffer CType.unsignedChar (memGDAL Nat) demoWorld "in.tif" [] [] false).dimensions
      = [2, 3, 1] ∧
    delivered (memGDAL Nat) { demoWorld with handles := [some "in.tif"] } 0 GDT_Byte 2 3 1 1 0
      = 11 ∧
    (slotElems ((image2Buffer CType.unsignedChar (memGDAL Nat) demoWorld "in.tif" [] []
        false).buffer.getD 0 none))[1 * 3 + 0]? = some 12 ∧
    (slotElems ((image2Buffer CType.unsignedChar (memGDAL Nat) demoWorld "in.tif" [] []
        false).buffer.getD 0 none))[1 * 2 + 0]? = some 11 ∧
    (slotElems ((image2Buffer CType.unsignedChar (memGDAL Nat) demoWorld "in.tif" [] []
        false).buffer.getD 0 none))[2 * 3 + 1]? = none ∧
    (image2Buffer CType.unsignedChar (memGDAL Nat) (hugeWorld 2147483647 3 1) "huge.tif"
        [] [] false).result = Outcome.undefined :=
  ⟨by decide, by decide, by decide, by decide, by decide,
   image2Buffer_overflow CType.unsignedChar (memGDAL Nat) (hugeWorld 2147483647 3 1)
     "huge.tif" [] [] false { hugeWorld 2147483647 3 1 with handles := [some "huge.tif"] } 0
     rfl (by decide) (by decide) (by decide)⟩

/-- C10, amended. The layout is row-major over the columns, for images whose
last row offset `(nbRow - 1) * nbCol` is in the range of `int`: in the buffer
`image2Buffer` reads (the band count being below `INT_MAX`), the pixel GDAL
delivers for row `row` and column `col` of a band is the element at index
`row * nbCol + col`; and after `buffer2Image` on the lossless in-memory GDAL
the pixel of the file at row `row` and column `col` of a band is the element at
index `row * nbCol + col` of the buffer written. -/
theorem c10_row_major_layout :
    (∀ {σ α : Type} (T : CType) (C : Codec σ α) (s : σ) (imagepath : String)
        (prevBuffer : List (Slot α)) (prevDimensions : List Int) (initGDAL : Bool) (s1 : σ)
        (ds : Handle) (nbCol nbRow nbBands : Nat),
        C.gdalOpen (if initGDAL then C.allRegister s else s) imagepath = (s1, some ds) →
        C.getRasterXSize s1 ds = nbCol → C.getRasterYSize s1 ds = nbRow →
        C.getRasterCount s1 ds = nbBands →
        (nbRow - 1) * nbCol ≤ INT_MAX → nbBands < INT_MAX →
        ∀ band row col : Nat, band < nbBands → row < nbRow → col < nbCol →
          (slotElems ((image2Buffer T C s imagepath prevBuffer prevDimensions
              initGDAL).buffer.getD band none))[row * nbCol + col]? =
            some (delivered C s1 ds (toGDALDataType T) nbCol nbRow (band + 1) row col)) ∧
    (∀ {α : Type} [Inhabited α] (T : CType) (s : MemWorld α) (buffer : List (Slot α))
        (nbCol nbRow nbBands : Nat) (imagepath driver : String) (initGDAL : Bool),
        T ∈ supportedTypes → 1 ≤ nbCol → 1 ≤ nbRow → 1 ≤ nbBands →
        (nbRow - 1) * nbCol ≤ INT_MAX →
        wellFormed buffer nbCol nbRow nbBands →
        (memGDAL α).getDriverByName (if initGDAL then (memGDAL α).allRegister s else s)
          driver ≠ none →
        ∃ img : Raster α,
          (buffer2Image T (memGDAL α) s buffer
              [(nbCol : Int), (nbRow : Int), (nbBands : Int)] imagepath driver
              initGDAL).world.files imagepath = some img ∧
          img.xSize = nbCol ∧ img.ySize = nbRow ∧ img.count = nbBands ∧
          ∀ band row col : Nat, band < nbBands → row < nbRow → col < nbCol →
            (slotElems (buffer.getD band none))[row * nbCol + col]? =
              some (img.pix (band + 1) row col)) := by
  constructor
  · intro σ α T C s imagepath prevBuffer prevDimensions initGDAL s1 ds nbCol nbRow nbBands
      hopen hx hy hc hov hbands band row col hband hrow hcol
    subst hx hy hc
    rw [image2Buffer_opened T C s imagepath prevBuffer prevDimensions initGDAL s1 ds hopen
      hbands hov]
    have hslot : ((List.range (C.getRasterCount s1 ds)).map fun b =>
        bandContent C s1 ds (toGDALDataType T) (C.getRasterXSize s1 ds)
          (C.getRasterYSize s1 ds) (b + 1)
          (scratchBands C s1 ds (toGDALDataType T) (C.getRasterXSize s1 ds)
            (C.getRasterYSize s1 ds) b)).getD band none =
        bandContent C s1 ds (toGDALDataType T) (C.getRasterXSize s1 ds)
          (C.getRasterYSize s1 ds) (band + 1)
          (scratchBands C s1 ds (toGDALDataType T) (C.getRasterXSize s1 ds)
            (C.getRasterYSize s1 ds) band) := by
      simp [List.getD_eq_getElem?_getD, hband]
    simp only [hslot]
    rw [bandContent_getElem C s1 ds _ _ _ (band + 1) _ row col hrow hcol]
    rfl
  · intro α _ T s buffer nbCol nbRow nbBands imagepath driver initGDAL hT hw hh hn hov hgood
      hdrv
    have hT2 : toGDALDataType T ≠ GDT_Unknown := (toGDALDataType_ne_unknown_iff T).mpr hT
    have hdrv2 : driver ∈ (if initGDAL then (memGDAL α).allRegister s else s).drivers := by
      by_contra hne
      apply hdrv
      show (if driver ∈ (if initGDAL then (memGDAL α).allRegister s else s).drivers
        then some driver else none) = none
      rw [if_neg hne]
    rw [memGDAL_buffer2Image T hT2 s buffer nbCol nbRow nbBands hw hh hn hgood hov imagepath
      driver initGDAL hdrv2]
    refine ⟨⟨nbCol, nbRow, nbBands, bandsWritten nbCol nbRow nbBands buffer⟩, ?_, rfl, rfl,
      rfl, ?_⟩
    · simp [MemWorld.written]
    · intro band row col hband hrow hcol
      obtain ⟨buf, hslot, hlen⟩ := wellFormed_slot buffer nbCol nbRow nbBands hgood band hband
      have hget : buffer.getD band none = some buf := by
        rw [List.getD_eq_getElem?_getD, hslot]; rfl
      have hlt : row * nbCol + col < buf.length := by
        rw [hlen]
        calc row * nbCol + col < row * nbCol + nbCol := by omega
          _ = (row + 1) * nbCol := by rw [Nat.succ_mul]
          _ ≤ nbRow * nbCol := Nat.mul_le_mul_right nbCol hrow
          _ = nbCol * nbRow := Nat.mul_comm nbRow nbCol
      have hcond : 1 ≤ band + 1 ∧ band + 1 ≤ nbBands ∧ row < nbRow ∧ col < nbCol :=
        ⟨by omega, hband, hrow, hcol⟩
      simp only [bandsWritten]
      rw [if_pos hcond, Nat.add_sub_cancel, hget]
      simp [slotElems, List.getD_eq_getElem?_getD, List.getElem?_eq_getElem hlt]

/-- C10 amended, at concrete inputs: `in.tif` (2 columns, 3 rows) read, and the
ramp buffers (4 columns, 3 rows, 2 bands) written. -/
theorem c10_row_major_layout_witness :
    (∀ band row col : Nat, band < 1 → row < 3 → col < 2 →
      (slotElems ((image2Buffer CType.unsignedChar (memGDAL Nat) demoWorld "in.tif" [] []
          false).buffer.getD band none))[row * 2 + col]? =
        some (delivered (memGDAL Nat) { demoWorld with handles := [some "in.tif"] } 0
          (toGDALDataType CType.unsignedChar) 2 3 (band + 1) row col)) ∧
    (∃ img : Raster Nat,
      (buffer2Image CType.unsignedChar (memGDAL Nat) demoWorld rampBuffers
          [((4 : Nat) : Int), ((3 : Nat) : Int), ((2 : Nat) : Int)] "ramp.tif" "GTiff"
          false).world.files "ramp.tif" = some img ∧
      img.xSize = 4 ∧ img.ySize = 3 ∧ img.count = 2 ∧
      ∀ band row col : Nat, band < 2 → row < 3 → col < 4 →
        (slotElems (rampBuffers.getD band none))[row * 4 + col]? =
          some (img.pix (band + 1) row col)) :=
  ⟨c10_row_major_layout.1 CType.unsignedChar (memGDAL Nat) demoWorld "in.tif" [] [] false
      { demoWorld with handles := [some "in.tif"] } 0 2 3 1 (by rfl) (by rfl) (by rfl)
      (by rfl) (by decide) (by decide),
   c10_row_major_layout.2 CType.unsignedChar demoWorld rampBuffers 4 3 2 "ramp.tif" "GTiff"
      false (by decide) (by decide) (by decide) (by decide) (by decide) (by decide)
      (by decide)⟩

end ImageBuffer
